import Mathlib

/-!
Verification of the package-stanza parser in `libopkg/pkg_parse.c`
(`parse_status`, `parse_conffiles`, `parse_version`, `get_arch_priority`,
`pkg_parse_line`, `pkg_parse_from_stream`).

Lines are embedded as `List Char`.  The C `static` variables of
`pkg_parse_line` (`reading_conffiles`, `reading_description`,
`description`) are threaded explicitly through a `PState` value.
Machine integers are `Nat` with explicit clamping at `ULONG_MAX` where
the C library's `strtoul` semantics makes overflow observable.
External collaborators that are declared but not present in the
repository sources (`parse_util.c`, `pkg.c` setters, the status-enum
module, `libbb`) are modelled from the specification; each such
definition carries a doc comment saying so.
-/

set_option maxHeartbeats 1000000

namespace OpkgParse

/-- C locale `isspace`: space, tab, newline, vertical tab, form feed,
carriage return. -/
def isspace_c (c : Char) : Bool :=
  c = ' ' || c = '\t' || c = '\n' || c = Char.ofNat 11 || c = Char.ofNat 12 || c = '\r'

/-- C locale `isdigit`. -/
def isdigit_c (c : Char) : Bool :=
  '0' ≤ c && c ≤ '9'

/-- Numeric value of a decimal digit character. -/
def digitVal (c : Char) : Nat := c.toNat - '0'.toNat

/-- `ULONG_MAX` on the 64-bit targets opkg-lede builds for. -/
def ULONG_MAX : Nat := 2 ^ 64 - 1

/-- Result of a C `strtoul` call: the returned value and whether
`errno` was set to `ERANGE`. -/
structure StrtoulRes where
  val : Nat
  erange : Bool
  deriving DecidableEq

/-- Accumulate the value of a run of decimal digits. -/
def natOfDigits (l : List Char) : Nat :=
  l.foldl (fun a c => a * 10 + digitVal c) 0

/-- Clamp a parsed magnitude to `unsigned long`, applying the C
negation-with-wraparound for a leading minus sign; `erange` is set
exactly when the magnitude exceeds `ULONG_MAX`. -/
def mkUlong (neg : Bool) (v : Nat) : StrtoulRes :=
  if v > ULONG_MAX then ⟨ULONG_MAX, true⟩
  else ⟨if neg then (2 ^ 64 - v % 2 ^ 64) % 2 ^ 64 else v, false⟩

/-- Split off an optional sign character after whitespace skipping:
returns (negate?, rest). -/
def splitSign (s : List Char) : Bool × List Char :=
  match s with
  | c :: r => if c = '-' then (true, r) else if c = '+' then (false, r) else (false, s)
  | [] => (false, s)

/-- C `strtoul(s, NULL, 10)`: skip whitespace, optional sign, then a
run of decimal digits (empty run gives 0, no error). -/
def strtoul10 (s : List Char) : StrtoulRes :=
  let s1 := s.dropWhile isspace_c
  let p := splitSign s1
  mkUlong p.1 (natOfDigits (p.2.takeWhile isdigit_c))

/-- C hexadecimal digit test. -/
def ishexdigit_c (c : Char) : Bool :=
  isdigit_c c || ('a' ≤ c && c ≤ 'f') || ('A' ≤ c && c ≤ 'F')

/-- C octal digit test. -/
def isoctdigit_c (c : Char) : Bool :=
  '0' ≤ c && c ≤ '7'

/-- Numeric value of a hexadecimal digit character. -/
def hexDigitVal (c : Char) : Nat :=
  if isdigit_c c then c.toNat - '0'.toNat
  else if 'a' ≤ c && c ≤ 'f' then c.toNat - 'a'.toNat + 10
  else c.toNat - 'A'.toNat + 10

/-- Accumulate the value of a run of hexadecimal digits. -/
def natOfHexDigits (l : List Char) : Nat :=
  l.foldl (fun a c => a * 16 + hexDigitVal c) 0

/-- Accumulate the value of a run of octal digits. -/
def natOfOctDigits (l : List Char) : Nat :=
  l.foldl (fun a c => a * 8 + digitVal c) 0

/-- C `strtoul(s, NULL, 0)`: like base 10 but a `0x`/`0X` prefix selects
hexadecimal and a bare leading `0` selects octal. -/
def strtoul0 (s : List Char) : StrtoulRes :=
  let s1 := s.dropWhile isspace_c
  let p := splitSign s1
  match p.2 with
  | '0' :: x :: r =>
    if x = 'x' || x = 'X' then mkUlong p.1 (natOfHexDigits (r.takeWhile ishexdigit_c))
    else mkUlong p.1 (natOfOctDigits ((x :: r).takeWhile isoctdigit_c))
  | '0' :: [] => mkUlong p.1 0
  | _ => mkUlong p.1 (natOfDigits (p.2.takeWhile isdigit_c))

/-- C `strtol(s, NULL, 0)` as used by `get_arch_priority`; the claims do
not exercise signed clamping, so the signed value is returned exactly
from the base-0 magnitude parse. -/
def strtol0 (s : List Char) : Int :=
  let s1 := s.dropWhile isspace_c
  let p := splitSign s1
  let m : Nat := (strtoul0 s1).val
  if p.1 then -(m : Int) else (m : Int)

/-- After whitespace and sign skipping, does the input start with a
decimal digit?  (`strtoul` finds no number at all otherwise.) -/
def noLeadingDigit (s : List Char) : Bool :=
  match (splitSign (s.dropWhile isspace_c)).2.head? with
  | some c => !isdigit_c c
  | none => true

/-- Bool prefix test on character lists (C `strncmp(line, kw, strlen kw) == 0`). -/
def starts_with : List Char → List Char → Bool
  | [], _ => true
  | _ :: _, [] => false
  | k :: ks, c :: cs => k = c && starts_with ks cs

/-- `parse_util.c` `is_field`: the line matches a field keyword iff the
keyword is a literal prefix of the line.  Modelled from the spec:
classification is by exact keyword prefix, case-sensitive (the caller
passes the trailing colon explicitly only for the MD5sum variants). -/
def is_field (type line : List Char) : Bool :=
  starts_with type line

/-- Modelled from the spec: `parse_simple` of `parse_util.c` — the
field value is everything after the keyword and its colon, with leading
whitespace trimmed. -/
def parse_simple (type line : List Char) : List Char :=
  (line.drop (type.length + 1)).dropWhile isspace_c

/-- Modelled from the spec: the scalar string setter `pkg_set_string`
of `pkg.c` trims leading whitespace and stores/returns the value. -/
def set_string_val (s : List Char) : List Char :=
  s.dropWhile isspace_c

/-- `parse_util.c` `line_is_blank`: every character is whitespace. -/
def line_is_blank (line : List Char) : Bool :=
  line.all isspace_c

/-- Modelled from the spec: the external List Parser — the raw value
(after the keyword's colon) split at commas into raw strings. -/
def parse_list (line : List Char) : List (List Char) :=
  (((line.dropWhile (fun c => c ≠ ':')).drop 1).splitOn ',').map
    (fun s => s.dropWhile isspace_c)

/-- One `%Ns` conversion of C `sscanf`: skip whitespace, then read at
most `maxw` non-whitespace characters; fails only when the input is
exhausted. -/
def scan_token (maxw : Nat) (s : List Char) : Option (List Char × List Char) :=
  let s1 := s.dropWhile isspace_c
  let tok := (s1.takeWhile (fun c => !isspace_c c)).take maxw
  if tok.isEmpty then none else some (tok, s1.drop tok.length)

/-- Position of the first occurrence of a character: the part strictly
before it and the part strictly after it (C `strchr`). -/
def strchr_split (ch : Char) : List Char → Option (List Char × List Char)
  | [] => none
  | c :: cs =>
    if c = ch then some ([], cs)
    else (strchr_split ch cs).map (fun p => (c :: p.1, p.2))

/-- Position of the last occurrence of a character: the part strictly
before it and the part strictly after it (C `strrchr`). -/
def strrchr_split (ch : Char) : List Char → Option (List Char × List Char)
  | [] => none
  | c :: cs =>
    match strrchr_split ch cs with
    | some p => some (c :: p.1, p.2)
    | none => if c = ch then some ([], cs) else none

/-- Diagnostics emitted through `opkg_msg`/`opkg_perror` at ERROR
severity, identified by call site. -/
inductive Diag where
  | statusErr
  | conffilesErr
  | epochErr
  deriving DecidableEq

/-- The decoded package record: the `pkg_t` fields that
`pkg_parse.c` writes.  Status enumerations are modelled as the raw
tokens handed to the external status-enum module, and the description
holds the committed accumulated text. -/
structure Pkg where
  name : Option (List Char) := none
  architecture : Option (List Char) := none
  arch_priority : Int := 0
  auto_installed : Bool := false
  essential : Bool := false
  epoch : Option Nat := none
  version : Option (List Char) := none
  revision : Option (List Char) := none
  filename : Option (List Char) := none
  maintainer : Option (List Char) := none
  md5sum : Option (List Char) := none
  sha256sum : Option (List Char) := none
  priority_field : Option (List Char) := none
  section_field : Option (List Char) := none
  source : Option (List Char) := none
  tags : Option (List Char) := none
  description : Option (List Char) := none
  installed_size : Nat := 0
  installed_time : Nat := 0
  size : Nat := 0
  state_want : Option (List Char) := none
  state_flag : Option (List Char) := none
  state_status : Option (List Char) := none
  conffiles : List (List Char × List Char) := []
  depends_str : Option (List (List Char)) := none
  pre_depends_str : Option (List (List Char)) := none
  recommends_str : Option (List (List Char)) := none
  suggests_str : Option (List (List Char)) := none
  conflicts_str : Option (List (List Char)) := none
  provides_str : Option (List (List Char)) := none
  replaces_str : Option (List (List Char)) := none
  deriving DecidableEq

/-- The `static` state of `pkg_parse_line`: the two continuation flags
and the description accumulation buffer. -/
structure PState where
  reading_conffiles : Bool := false
  reading_description : Bool := false
  description : Option (List Char) := none
  deriving DecidableEq

/-- The outcome of one `pkg_parse_line` call: the updated record, the
updated static state, the return value (`true` = 1 = stanza boundary),
and the diagnostics emitted during the call. -/
structure LineResult where
  pkg : Pkg
  st : PState
  ret : Bool
  diags : List Diag
  deriving DecidableEq

/-- `sscanf(sstr, "Status: %63s %63s %63s", ...)`: literal prefix
`Status:` then three `%63s` conversions.  `none` means fewer than three
conversions succeeded. -/
def sscanf_status (s : List Char) : Option (List Char × List Char × List Char) :=
  if starts_with ("Status:".data) s then
    match scan_token 63 (s.drop 7) with
    | none => none
    | some p1 =>
      match scan_token 63 p1.2 with
      | none => none
      | some p2 =>
        match scan_token 63 p2.2 with
        | none => none
        | some p3 => some (p1.1, p2.1, p3.1)
  else none

/-- `sscanf(cstr, "%1023s %84s", ...)`: two conversions; `none` means
fewer than two succeeded. -/
def sscanf_two (s : List Char) : Option (List Char × List Char) :=
  match scan_token 1023 s with
  | none => none
  | some p1 =>
    match scan_token 84 p1.2 with
    | none => none
    | some p2 => some (p1.1, p2.1)

/-- `parse_status` of `pkg_parse.c`: on three tokens, the tokens are
handed to the status-enum module and stored; otherwise an ERROR
diagnostic and no field change. -/
def parse_status (pkg : Pkg) (sstr : List Char) : Pkg × List Diag :=
  match sscanf_status sstr with
  | none => (pkg, [Diag.statusErr])
  | some t =>
    ({ pkg with state_want := some t.1, state_flag := some t.2.1,
                state_status := some t.2.2 }, [])

/-- `parse_conffiles` of `pkg_parse.c`: on two tokens, append a
(path, checksum) entry; otherwise an ERROR diagnostic and no change. -/
def parse_conffiles (pkg : Pkg) (cstr : List Char) : Pkg × List Diag :=
  match sscanf_two cstr with
  | none => (pkg, [Diag.conffilesErr])
  | some t => ({ pkg with conffiles := pkg.conffiles ++ [(t.1, t.2)] }, [])

/-- The last part of `parse_version`: store the working version string
through `pkg_set_string`, then `strrchr` for `-`; if found, truncate
the stored string there and store the tail as the revision. -/
def setVersionRevision (pkg : Pkg) (v : List Char) : Pkg :=
  let stored := set_string_val v
  match strrchr_split '-' stored with
  | some p => { pkg with version := some p.1, revision := some p.2 }
  | none => { pkg with version := some stored, revision := none }

/-- `parse_version` of `pkg_parse.c`: strip an optional `Version:`
label and leading whitespace; on a colon, `pkg_set_int(PKG_EPOCH,
strtoul(vstr, NULL, 10))` is always performed and `opkg_perror` fires
only when `errno` was set (overflow); the rest is the working version
string, split at the last hyphen into version and revision. -/
def parse_version (pkg : Pkg) (vstr0 : List Char) : Pkg × List Diag :=
  let v1 := if starts_with ("Version:".data) vstr0 then vstr0.drop 8 else vstr0
  let v2 := v1.dropWhile isspace_c
  match strchr_split ':' v2 with
  | some p =>
    let r := strtoul10 v2
    (setVersionRevision { pkg with epoch := some r.val } p.2,
     if r.erange then [Diag.epochErr] else [])
  | none => (setVersionRevision pkg v2, [])

/-- `get_arch_priority` of `pkg_parse.c`: first name match in the
configured architecture list, `strtol(value, NULL, 0)` of its value,
default 0. -/
def get_arch_priority (arch_list : List (List Char × List Char)) (arch : List Char) : Int :=
  match arch_list.find? (fun nv => nv.1 = arch) with
  | some nv => strtol0 nv.2
  | none => 0

/-- Field bits of the visibility mask (`PFM_*` of `pkg.h`, modelled
from the spec as distinct bits; `PFM_ALL` is the all-ones `uint`). -/
def PFM_ARCHITECTURE : Nat := 1 <<< 0

def PFM_AUTO_INSTALLED : Nat := 1 <<< 1

def PFM_CONFFILES : Nat := 1 <<< 2

def PFM_CONFLICTS : Nat := 1 <<< 3

def PFM_DESCRIPTION : Nat := 1 <<< 4

def PFM_DEPENDS : Nat := 1 <<< 5

def PFM_ESSENTIAL : Nat := 1 <<< 6

def PFM_FILENAME : Nat := 1 <<< 7

def PFM_INSTALLED_SIZE : Nat := 1 <<< 8

def PFM_INSTALLED_TIME : Nat := 1 <<< 9

def PFM_MD5SUM : Nat := 1 <<< 10

def PFM_MAINTAINER : Nat := 1 <<< 11

def PFM_PACKAGE : Nat := 1 <<< 12

def PFM_PRIORITY : Nat := 1 <<< 13

def PFM_PROVIDES : Nat := 1 <<< 14

def PFM_PRE_DEPENDS : Nat := 1 <<< 15

def PFM_RECOMMENDS : Nat := 1 <<< 16

def PFM_REPLACES : Nat := 1 <<< 17

def PFM_SECTION : Nat := 1 <<< 18

def PFM_SHA256SUM : Nat := 1 <<< 19

def PFM_SIZE : Nat := 1 <<< 20

def PFM_SOURCE : Nat := 1 <<< 21

def PFM_STATUS : Nat := 1 <<< 22

def PFM_SUGGESTS : Nat := 1 <<< 23

def PFM_TAGS : Nat := 1 <<< 24

def PFM_VERSION : Nat := 1 <<< 25

/-- `PFM_ALL`: the all-ones 32-bit `uint`. -/
def PFM_ALL : Nat := 2 ^ 32 - 1

/-- 32-bit `uint` wraparound. -/
def UINT_MOD : Nat := 2 ^ 32

/-- A mask bit test `(mask & PFM_X)` as used in `pkg_parse_line`. -/
def maskHas (m bit : Nat) : Bool :=
  m &&& bit ≠ 0

/-- The code after the `switch` of `pkg_parse_line`: commit a pending
description through `pkg_set_string`, then reset both continuation
flags (the `dont_reset_flags` label skips this). -/
def finish_flags (pkg : Pkg) (st : PState) (ret : Bool) (ds : List Diag) : LineResult :=
  let pkg' :=
    if st.reading_description && st.description.isSome then
      { pkg with description := some (set_string_val (st.description.getD [])) }
    else pkg
  ⟨pkg', ⟨false, false, none⟩, ret, ds⟩

/-- The `default` arm of the `switch`: blank lines signal the end of a
stanza; everything falls through to the flag reset. -/
def handle_default (pkg : Pkg) (st : PState) (line : List Char) : LineResult :=
  finish_flags pkg st (line_is_blank line) []

/-- The body of `pkg_parse_line` after the mask has been combined:
the first-character `switch`, with `e` the effective enabled-field
mask. -/
def dispatch (tty : Bool) (arch_list : List (List Char × List Char))
    (pkg : Pkg) (st : PState) (line : List Char) (e : Nat) : LineResult :=
  let c := line.head?.getD (Char.ofNat 0)
  if c = 'A' then
    if maskHas e PFM_ARCHITECTURE && is_field ("Architecture".data) line then
      let v := set_string_val (line.drop ("Architecture".length + 1))
      finish_flags { pkg with architecture := some v,
                              arch_priority := get_arch_priority arch_list v } st false []
    else if maskHas e PFM_AUTO_INSTALLED && is_field ("Auto-Installed".data) line then
      let tmp := parse_simple ("Auto-Installed".data) line
      finish_flags (if tmp = "yes".data then { pkg with auto_installed := true } else pkg)
        st false []
    else finish_flags pkg st false []
  else if c = 'C' then
    if maskHas e PFM_CONFFILES && is_field ("Conffiles".data) line then
      ⟨pkg, ⟨true, false, st.description⟩, false, []⟩
    else if maskHas e PFM_CONFLICTS && is_field ("Conflicts".data) line then
      finish_flags { pkg with conflicts_str := some (parse_list line) } st false []
    else finish_flags pkg st false []
  else if c = 'D' then
    if maskHas e PFM_DESCRIPTION && is_field ("Description".data) line then
      ⟨pkg, ⟨false, true, some (parse_simple ("Description".data) line)⟩, false, []⟩
    else if maskHas e PFM_DEPENDS && is_field ("Depends".data) line then
      finish_flags { pkg with depends_str := some (parse_list line) } st false []
    else finish_flags pkg st false []
  else if c = 'E' then
    if maskHas e PFM_ESSENTIAL && is_field ("Essential".data) line then
      let tmp := parse_simple ("Essential".data) line
      finish_flags (if tmp = "yes".data then { pkg with essential := true } else pkg)
        st false []
    else finish_flags pkg st false []
  else if c = 'F' then
    if maskHas e PFM_FILENAME && is_field ("Filename".data) line then
      finish_flags { pkg with filename := some (set_string_val (line.drop ("Filename".length + 1))) }
        st false []
    else finish_flags pkg st false []
  else if c = 'I' then
    if maskHas e PFM_INSTALLED_SIZE && is_field ("Installed-Size".data) line then
      finish_flags { pkg with installed_size := (strtoul0 (parse_simple ("Installed-Size".data) line)).val }
        st false []
    else if maskHas e PFM_INSTALLED_TIME && is_field ("Installed-Time".data) line then
      finish_flags { pkg with installed_time := (strtoul0 (parse_simple ("Installed-Time".data) line)).val }
        st false []
    else finish_flags pkg st false []
  else if c = 'M' then
    if maskHas e PFM_MD5SUM && is_field ("MD5sum:".data) line then
      finish_flags { pkg with md5sum := some (set_string_val (line.drop ("MD5sum:".length))) }
        st false []
    else if maskHas e PFM_MD5SUM && is_field ("MD5Sum:".data) line then
      finish_flags { pkg with md5sum := some (set_string_val (line.drop ("MD5Sum:".length))) }
        st false []
    else if maskHas e PFM_MAINTAINER && is_field ("Maintainer".data) line then
      finish_flags { pkg with maintainer := some (set_string_val (line.drop ("Maintainer".length + 1))) }
        st false []
    else finish_flags pkg st false []
  else if c = 'P' then
    if maskHas e PFM_PACKAGE && is_field ("Package".data) line then
      finish_flags { pkg with name := some (parse_simple ("Package".data) line) } st false []
    else if maskHas e PFM_PRIORITY && is_field ("Priority".data) line then
      finish_flags { pkg with priority_field := some (set_string_val (line.drop ("Priority".length + 1))) }
        st false []
    else if maskHas e PFM_PROVIDES && is_field ("Provides".data) line then
      finish_flags { pkg with provides_str := some (parse_list line) } st false []
    else if maskHas e PFM_PRE_DEPENDS && is_field ("Pre-Depends".data) line then
      finish_flags { pkg with pre_depends_str := some (parse_list line) } st false []
    else finish_flags pkg st false []
  else if c = 'R' then
    if maskHas e PFM_RECOMMENDS && is_field ("Recommends".data) line then
      finish_flags { pkg with recommends_str := some (parse_list line) } st false []
    else if maskHas e PFM_REPLACES && is_field ("Replaces".data) line then
      finish_flags { pkg with replaces_str := some (parse_list line) } st false []
    else finish_flags pkg st false []
  else if c = 'S' then
    if maskHas e PFM_SECTION && is_field ("Section".data) line then
      finish_flags { pkg with section_field := some (set_string_val (line.drop ("Section".length + 1))) }
        st false []
    else if maskHas e PFM_SHA256SUM && is_field ("SHA256sum".data) line then
      finish_flags { pkg with sha256sum := some (set_string_val (line.drop ("SHA256sum".length + 1))) }
        st false []
    else if maskHas e PFM_SIZE && is_field ("Size".data) line then
      finish_flags { pkg with size := (strtoul0 (parse_simple ("Size".data) line)).val }
        st false []
    else if maskHas e PFM_SOURCE && is_field ("Source".data) line then
      finish_flags { pkg with source := some (set_string_val (line.drop ("Source".length + 1))) }
        st false []
    else if maskHas e PFM_STATUS && is_field ("Status".data) line then
      let r := parse_status pkg line
      finish_flags r.1 st false r.2
    else if maskHas e PFM_SUGGESTS && is_field ("Suggests".data) line then
      finish_flags { pkg with suggests_str := some (parse_list line) } st false []
    else finish_flags pkg st false []
  else if c = 'T' then
    if maskHas e PFM_TAGS && is_field ("Tags".data) line then
      finish_flags { pkg with tags := some (set_string_val (line.drop ("Tags".length + 1))) }
        st false []
    else finish_flags pkg st false []
  else if c = 'V' then
    if maskHas e PFM_VERSION && is_field ("Version".data) line then
      let r := parse_version pkg line
      finish_flags r.1 st false r.2
    else finish_flags pkg st false []
  else if c = ' ' then
    if maskHas e PFM_DESCRIPTION && st.reading_description then
      let d := (st.description.getD []) ++ (if tty then '\n' :: line else line)
      ⟨pkg, { st with description := some d }, false, []⟩
    else if maskHas e PFM_CONFFILES && st.reading_conffiles then
      let r := parse_conffiles pkg line
      ⟨r.1, st, false, r.2⟩
    else handle_default pkg st line
  else handle_default pkg st line

/-- `pkg_parse_line`: `mask |= conf->pfm; mask ^= PFM_ALL;` then the
dispatch.  `tty` is the `isatty(1)` result, `arch_list` the configured
architecture-priority table, `pfm` the process-wide exclusion mask. -/
def pkg_parse_line (tty : Bool) (arch_list : List (List Char × List Char)) (pfm : Nat)
    (pkg : Pkg) (st : PState) (line : List Char) (mask : Nat) : LineResult :=
  dispatch tty arch_list pkg st line (((mask % UINT_MOD) ||| (pfm % UINT_MOD)) ^^^ PFM_ALL)

/-- Modelled from the spec: `parse_from_stream_nomalloc` of
`parse_util.c` (absent from the sources) — the Stream Driver feeds each
line to `pkg_parse_line` until it reports a stanza boundary or the
source is exhausted, and returns the boundary signal (`false` at
end of stream). -/
def parse_from_stream_loop (tty : Bool) (arch_list : List (List Char × List Char))
    (pfm : Nat) (mask : Nat) :
    Pkg → PState → List (List Char) → Pkg × PState × Bool × List Diag
  | pkg, st, [] => (pkg, st, false, [])
  | pkg, st, l :: ls =>
    let r := pkg_parse_line tty arch_list pfm pkg st l mask
    if r.ret then (r.pkg, r.st, true, r.diags)
    else
      let rest := parse_from_stream_loop tty arch_list pfm mask r.pkg r.st ls
      (rest.1, rest.2.1, rest.2.2.1, r.diags ++ rest.2.2.2)

/-- `pkg_parse_from_stream`: run the stream loop, then
`if (pkg->name == NULL) ret = 1;`. -/
def pkg_parse_from_stream (tty : Bool) (arch_list : List (List Char × List Char))
    (pfm : Nat) (pkg : Pkg) (st : PState) (lines : List (List Char)) (mask : Nat) :
    Pkg × PState × Bool × List Diag :=
  let r := parse_from_stream_loop tty arch_list pfm mask pkg st lines
  (r.1, r.2.1, if r.1.name = none then true else r.2.2.1, r.2.2.2)

/-- Condition under which `pkg_parse_line` opens the conffiles
continuation (`case 'C'`, first test). -/
def opens_conffiles (e : Nat) (line : List Char) : Bool :=
  maskHas e PFM_CONFFILES && is_field ("Conffiles".data) line

/-- Condition under which `pkg_parse_line` opens the description
continuation (`case 'D'`, first test). -/
def opens_description (e : Nat) (line : List Char) : Bool :=
  maskHas e PFM_DESCRIPTION && is_field ("Description".data) line

/-- Condition under which a line is consumed as description
continuation data (`case ' '`, first test). -/
def cont_description (e : Nat) (st : PState) (line : List Char) : Bool :=
  (line.head?.getD (Char.ofNat 0) = ' ') && maskHas e PFM_DESCRIPTION
    && st.reading_description

/-- Condition under which a line is consumed as conffiles continuation
data (`case ' '`, second test). -/
def cont_conffiles (e : Nat) (st : PState) (line : List Char) : Bool :=
  (line.head?.getD (Char.ofNat 0) = ' ')
    && !(maskHas e PFM_DESCRIPTION && st.reading_description)
    && maskHas e PFM_CONFFILES && st.reading_conffiles

/-- The record update and diagnostics performed by the `switch` arms of
`pkg_parse_line` other than the four continuation-related outcomes: the
same first-character dispatch restricted to the plain field handlers. -/
def fieldUpd (arch_list : List (List Char × List Char)) (pkg : Pkg)
    (line : List Char) (e : Nat) : Pkg × List Diag :=
  let c := line.head?.getD (Char.ofNat 0)
  if c = 'A' then
    if maskHas e PFM_ARCHITECTURE && is_field ("Architecture".data) line then
      let v := set_string_val (line.drop ("Architecture".length + 1))
      ({ pkg with architecture := some v,
                  arch_priority := get_arch_priority arch_list v }, [])
    else if maskHas e PFM_AUTO_INSTALLED && is_field ("Auto-Installed".data) line then
      let tmp := parse_simple ("Auto-Installed".data) line
      ((if tmp = "yes".data then { pkg with auto_installed := true } else pkg), [])
    else (pkg, [])
  else if c = 'C' then
    if maskHas e PFM_CONFLICTS && is_field ("Conflicts".data) line then
      ({ pkg with conflicts_str := some (parse_list line) }, [])
    else (pkg, [])
  else if c = 'D' then
    if maskHas e PFM_DEPENDS && is_field ("Depends".data) line then
      ({ pkg with depends_str := some (parse_list line) }, [])
    else (pkg, [])
  else if c = 'E' then
    if maskHas e PFM_ESSENTIAL && is_field ("Essential".data) line then
      let tmp := parse_simple ("Essential".data) line
      ((if tmp = "yes".data then { pkg with essential := true } else pkg), [])
    else (pkg, [])
  else if c = 'F' then
    if maskHas e PFM_FILENAME && is_field ("Filename".data) line then
      ({ pkg with filename := some (set_string_val (line.drop ("Filename".length + 1))) }, [])
    else (pkg, [])
  else if c = 'I' then
    if maskHas e PFM_INSTALLED_SIZE && is_field ("Installed-Size".data) line then
      ({ pkg with installed_size := (strtoul0 (parse_simple ("Installed-Size".data) line)).val }, [])
    else if maskHas e PFM_INSTALLED_TIME && is_field ("Installed-Time".data) line then
      ({ pkg with installed_time := (strtoul0 (parse_simple ("Installed-Time".data) line)).val }, [])
    else (pkg, [])
  else if c = 'M' then
    if maskHas e PFM_MD5SUM && is_field ("MD5sum:".data) line then
      ({ pkg with md5sum := some (set_string_val (line.drop ("MD5sum:".length))) }, [])
    else if maskHas e PFM_MD5SUM && is_field ("MD5Sum:".data) line then
      ({ pkg with md5sum := some (set_string_val (line.drop ("MD5Sum:".length))) }, [])
    else if maskHas e PFM_MAINTAINER && is_field ("Maintainer".data) line then
      ({ pkg with maintainer := some (set_string_val (line.drop ("Maintainer".length + 1))) }, [])
    else (pkg, [])
  else if c = 'P' then
    if maskHas e PFM_PACKAGE && is_field ("Package".data) line then
      ({ pkg with name := some (parse_simple ("Package".data) line) }, [])
    else if maskHas e PFM_PRIORITY && is_field ("Priority".data) line then
      ({ pkg with priority_field := some (set_string_val (line.drop ("Priority".length + 1))) }, [])
    else if maskHas e PFM_PROVIDES && is_field ("Provides".data) line then
      ({ pkg with provides_str := some (parse_list line) }, [])
    else if maskHas e PFM_PRE_DEPENDS && is_field ("Pre-Depends".data) line then
      ({ pkg with pre_depends_str := some (parse_list line) }, [])
    else (pkg, [])
  else if c = 'R' then
    if maskHas e PFM_RECOMMENDS && is_field ("Recommends".data) line then
      ({ pkg with recommends_str := some (parse_list line) }, [])
    else if maskHas e PFM_REPLACES && is_field ("Replaces".data) line then
      ({ pkg with replaces_str := some (parse_list line) }, [])
    else (pkg, [])
  else if c = 'S' then
    if maskHas e PFM_SECTION && is_field ("Section".data) line then
      ({ pkg with section_field := some (set_string_val (line.drop ("Section".length + 1))) }, [])
    else if maskHas e PFM_SHA256SUM && is_field ("SHA256sum".data) line then
      ({ pkg with sha256sum := some (set_string_val (line.drop ("SHA256sum".length + 1))) }, [])
    else if maskHas e PFM_SIZE && is_field ("Size".data) line then
      ({ pkg with size := (strtoul0 (parse_simple ("Size".data) line)).val }, [])
    else if maskHas e PFM_SOURCE && is_field ("Source".data) line then
      ({ pkg with source := some (set_string_val (line.drop ("Source".length + 1))) }, [])
    else if maskHas e PFM_STATUS && is_field ("Status".data) line then
      parse_status pkg line
    else if maskHas e PFM_SUGGESTS && is_field ("Suggests".data) line then
      ({ pkg with suggests_str := some (parse_list line) }, [])
    else (pkg, [])
  else if c = 'T' then
    if maskHas e PFM_TAGS && is_field ("Tags".data) line then
      ({ pkg with tags := some (set_string_val (line.drop ("Tags".length + 1))) }, [])
    else (pkg, [])
  else if c = 'V' then
    if maskHas e PFM_VERSION && is_field ("Version".data) line then
      parse_version pkg line
    else (pkg, [])
  else (pkg, [])

/-- The recognized field keywords, one constructor per `is_field` test
of `pkg_parse_line` (the legacy `MD5Sum:` spelling is separate but
shares the `PFM_MD5SUM` bit). -/
inductive PField where
  | architecture
  | autoInstalled
  | conffiles
  | conflicts
  | depends
  | descriptionField
  | essential
  | filename
  | installedSize
  | installedTime
  | maintainer
  | md5sum
  | md5sumLegacy
  | package
  | preDepends
  | priorityField
  | provides
  | recommends
  | replaces
  | sectionField
  | sha256sum
  | sizeField
  | source
  | status
  | suggests
  | tags
  | version
  deriving DecidableEq

/-- The keyword string each `is_field` test of `pkg_parse_line` uses. -/
def kwOf : PField → List Char
  | .architecture => "Architecture".data
  | .autoInstalled => "Auto-Installed".data
  | .conffiles => "Conffiles".data
  | .conflicts => "Conflicts".data
  | .depends => "Depends".data
  | .descriptionField => "Description".data
  | .essential => "Essential".data
  | .filename => "Filename".data
  | .installedSize => "Installed-Size".data
  | .installedTime => "Installed-Time".data
  | .maintainer => "Maintainer".data
  | .md5sum => "MD5sum:".data
  | .md5sumLegacy => "MD5Sum:".data
  | .package => "Package".data
  | .preDepends => "Pre-Depends".data
  | .priorityField => "Priority".data
  | .provides => "Provides".data
  | .recommends => "Recommends".data
  | .replaces => "Replaces".data
  | .sectionField => "Section".data
  | .sha256sum => "SHA256sum".data
  | .sizeField => "Size".data
  | .source => "Source".data
  | .status => "Status".data
  | .suggests => "Suggests".data
  | .tags => "Tags".data
  | .version => "Version".data

/-- The `PFM_*` bit guarding each field test. -/
def pfmBit : PField → Nat
  | .architecture => PFM_ARCHITECTURE
  | .autoInstalled => PFM_AUTO_INSTALLED
  | .conffiles => PFM_CONFFILES
  | .conflicts => PFM_CONFLICTS
  | .depends => PFM_DEPENDS
  | .descriptionField => PFM_DESCRIPTION
  | .essential => PFM_ESSENTIAL
  | .filename => PFM_FILENAME
  | .installedSize => PFM_INSTALLED_SIZE
  | .installedTime => PFM_INSTALLED_TIME
  | .maintainer => PFM_MAINTAINER
  | .md5sum => PFM_MD5SUM
  | .md5sumLegacy => PFM_MD5SUM
  | .package => PFM_PACKAGE
  | .preDepends => PFM_PRE_DEPENDS
  | .priorityField => PFM_PRIORITY
  | .provides => PFM_PROVIDES
  | .recommends => PFM_RECOMMENDS
  | .replaces => PFM_REPLACES
  | .sectionField => PFM_SECTION
  | .sha256sum => PFM_SHA256SUM
  | .sizeField => PFM_SIZE
  | .source => PFM_SOURCE
  | .status => PFM_STATUS
  | .suggests => PFM_SUGGESTS
  | .tags => PFM_TAGS
  | .version => PFM_VERSION


/-- The hyphen clause of the Version Decomposer: relative to the
stored working string (leading whitespace trimmed by the string
setter), a record satisfies this when its version is the part before
the last hyphen and its revision the part after it, and when the
revision is absent if no hyphen occurs. -/
def VersionRevSpec (out : Pkg) (working : List Char) : Prop :=
  (∀ p r, set_string_val working = p ++ '-' :: r → '-' ∉ r →
      out.version = some p ∧ out.revision = some r)
  ∧ (('-' ∉ set_string_val working) →
      out.version = some (set_string_val working) ∧ out.revision = none)


end OpkgParse

namespace OpkgParse

/-! ### Generic helpers about prefixes, `takeWhile`, `dropWhile` -/

theorem starts_with_append_self (k v : List Char) : starts_with k (k ++ v) = true := by
  induction k with
  | nil => simp [starts_with]
  | cons c cs ih => simp [starts_with, ih]

theorem starts_with_take (g f v : List Char)
    (h : starts_with g (f ++ v) = true) : starts_with (g.take f.length) f = true := by
  induction g generalizing f v with
  | nil => simp [starts_with]
  | cons c cs ih =>
    cases f with
    | nil => simp [starts_with]
    | cons x xs =>
      simp only [List.cons_append, starts_with, Bool.and_eq_true, decide_eq_true_eq] at h
      simpa [starts_with, h.1] using ih xs v h.2

theorem starts_with_append_false (g f v : List Char)
    (h : starts_with (g.take f.length) f = false) : starts_with g (f ++ v) = false := by
  cases hs : starts_with g (f ++ v) with
  | false => rfl
  | true => rw [starts_with_take g f v hs] at h; cases h

theorem starts_with_iff_append (k l : List Char) :
    starts_with k l = true ↔ ∃ t, l = k ++ t := by
  induction k generalizing l with
  | nil => simp [starts_with]
  | cons c cs ih =>
    cases l with
    | nil => simp [starts_with]
    | cons x xs =>
      simp only [starts_with, Bool.and_eq_true, decide_eq_true_eq, ih]
      constructor
      · rintro ⟨rfl, t, rfl⟩; exact ⟨t, rfl⟩
      · rintro ⟨t, h⟩
        cases h
        exact ⟨rfl, t, rfl⟩

theorem dropWhile_append_all (p : Char → Bool) (a b : List Char)
    (h : ∀ x ∈ a, p x = true) : (a ++ b).dropWhile p = b.dropWhile p := by
  induction a with
  | nil => rfl
  | cons c cs ih =>
    have hc : p c = true := h c (by simp)
    simp only [List.cons_append, List.dropWhile_cons, hc, if_true]
    exact ih (fun x hx => h x (by simp [hx]))

theorem dropWhile_append_stop (p : Char → Bool) (a b : List Char) (c : Char)
    (hc : p c = false) : (a ++ c :: b).dropWhile p = a.dropWhile p ++ c :: b := by
  induction a with
  | nil => simp [List.dropWhile_cons, hc]
  | cons x xs ih =>
    simp only [List.cons_append, List.dropWhile_cons]
    by_cases hx : p x = true
    · simp [hx, ih]
    · simp [hx]

theorem takeWhile_all (p : Char → Bool) (a : List Char)
    (h : ∀ x ∈ a, p x = true) : a.takeWhile p = a := by
  induction a with
  | nil => rfl
  | cons c cs ih =>
    have hc : p c = true := h c (by simp)
    simp only [List.takeWhile_cons, hc, if_true]
    rw [ih (fun x hx => h x (by simp [hx]))]

theorem takeWhile_append_stop (p : Char → Bool) (a b : List Char) (c : Char)
    (hc : p c = false) : (a ++ c :: b).takeWhile p = a.takeWhile p := by
  induction a with
  | nil => simp [List.takeWhile_cons, hc]
  | cons x xs ih =>
    simp only [List.cons_append, List.takeWhile_cons]
    by_cases hx : p x = true
    · simp [hx, ih]
    · simp [hx]

theorem dropWhile_all_nil (p : Char → Bool) (a : List Char)
    (h : ∀ x ∈ a, p x = true) : a.dropWhile p = [] := by
  induction a with
  | nil => rfl
  | cons c cs ih =>
    have hc : p c = true := h c (by simp)
    simp only [List.dropWhile_cons, hc, if_true]
    exact ih (fun x hx => h x (by simp [hx]))

/-! ### `strchr` / `strrchr` characterizations -/

theorem strchr_split_cons (ch c : Char) (cs : List Char) :
    strchr_split ch (c :: cs) =
      if c = ch then some ([], cs)
      else (strchr_split ch cs).map (fun p => (c :: p.1, p.2)) := rfl

theorem strrchr_split_cons (ch c : Char) (cs : List Char) :
    strrchr_split ch (c :: cs) =
      match strrchr_split ch cs with
      | some p => some (c :: p.1, p.2)
      | none => if c = ch then some ([], cs) else none := rfl

theorem strchr_split_of_decomp (ch : Char) (p r : List Char) (hp : ch ∉ p) :
    strchr_split ch (p ++ ch :: r) = some (p, r) := by
  induction p with
  | nil => simp [strchr_split]
  | cons q qs ih =>
    have hq : ¬q = ch := fun h => hp (h ▸ List.mem_cons_self q qs)
    have hqs : ch ∉ qs := fun h => hp (List.mem_cons_of_mem q h)
    rw [List.cons_append, strchr_split_cons, if_neg hq, ih hqs]
    rfl

theorem strchr_split_some (ch : Char) (s p r : List Char)
    (h : strchr_split ch s = some (p, r)) : s = p ++ ch :: r ∧ ch ∉ p := by
  induction s generalizing p with
  | nil => simp [strchr_split] at h
  | cons c cs ih =>
    rw [strchr_split_cons] at h
    by_cases hc : c = ch
    · rw [if_pos hc] at h
      injection h with h'
      injection h' with h1 h2
      subst h1; subst h2; subst hc
      exact ⟨rfl, List.not_mem_nil c⟩
    · rw [if_neg hc] at h
      rcases hu : strchr_split ch cs with _ | u
      · rw [hu] at h; cases h
      · rw [hu] at h
        simp only [Option.map] at h
        injection h with h'
        injection h' with h1 h2
        obtain ⟨hcs, hnp⟩ := ih u.1 (by rw [hu, ← h2])
        subst hcs
        rw [← h1]
        refine ⟨rfl, ?_⟩
        intro hm
        rcases List.mem_cons.mp hm with h' | h'
        · exact hc h'.symm
        · exact hnp h'

theorem strchr_split_none (ch : Char) (s : List Char) :
    strchr_split ch s = none ↔ ch ∉ s := by
  induction s with
  | nil => simp [strchr_split]
  | cons c cs ih =>
    rw [strchr_split_cons]
    by_cases hc : c = ch
    · subst hc; simp
    · rw [if_neg hc]
      rcases hu : strchr_split ch cs with _ | u
      · rw [Option.map_none']
        constructor
        · intro _ hm
          rcases List.mem_cons.mp hm with h' | h'
          · exact hc h'.symm
          · exact (ih.mp hu) h'
        · intro _; rfl
      · rw [Option.map_some']
        constructor
        · intro h; cases h
        · intro hm
          exfalso
          have hn := ih.mpr (fun h => hm (List.mem_cons_of_mem c h))
          rw [hn] at hu; cases hu

theorem strrchr_split_none (ch : Char) (s : List Char) :
    strrchr_split ch s = none ↔ ch ∉ s := by
  induction s with
  | nil => simp [strrchr_split]
  | cons c cs ih =>
    rw [strrchr_split_cons]
    rcases hu : strrchr_split ch cs with _ | u
    · show (if c = ch then some ([], cs) else none) = none ↔ ch ∉ c :: cs
      by_cases hc : c = ch
      · subst hc
        rw [if_pos rfl]
        constructor
        · intro h; cases h
        · intro hm
          exfalso
          exact hm (List.mem_cons_self c cs)
      · rw [if_neg hc]
        constructor
        · intro _ hm
          rcases List.mem_cons.mp hm with h' | h'
          · exact hc h'.symm
          · exact (ih.mp hu) h'
        · intro _; rfl
    · show some (c :: u.1, u.2) = none ↔ ch ∉ c :: cs
      constructor
      · intro h; cases h
      · intro hm
        exfalso
        have hn := ih.mpr (fun h => hm (List.mem_cons_of_mem c h))
        rw [hn] at hu; cases hu

theorem strrchr_split_of_decomp (ch : Char) (p r : List Char) (hr : ch ∉ r) :
    strrchr_split ch (p ++ ch :: r) = some (p, r) := by
  induction p with
  | nil =>
    rw [List.nil_append, strrchr_split_cons, (strrchr_split_none ch r).mpr hr]
    simp
  | cons q qs ih =>
    rw [List.cons_append, strrchr_split_cons, ih]

theorem strrchr_split_some (ch : Char) (s p r : List Char)
    (h : strrchr_split ch s = some (p, r)) : s = p ++ ch :: r ∧ ch ∉ r := by
  induction s generalizing p with
  | nil => simp [strrchr_split] at h
  | cons c cs ih =>
    rw [strrchr_split_cons] at h
    rcases hu : strrchr_split ch cs with _ | u
    · rw [hu] at h
      by_cases hc : c = ch
      · rw [if_pos hc] at h
        injection h with h'
        injection h' with h1 h2
        subst h1; subst h2; subst hc
        exact ⟨rfl, (strrchr_split_none c cs).mp hu⟩
      · rw [if_neg hc] at h; cases h
    · rw [hu] at h
      injection h with h'
      injection h' with h1 h2
      obtain ⟨hcs, hnr⟩ := ih u.1 (by rw [hu, ← h2])
      subst hcs
      rw [← h1]
      exact ⟨rfl, hnr⟩

/-! ### `strtoul` and `sscanf` facts -/

theorem strtoul10_append_stop (a b : List Char) (c : Char)
    (hsp : isspace_c c = false) (hminus : c ≠ '-') (hplus : c ≠ '+')
    (hdig : isdigit_c c = false) :
    strtoul10 (a ++ c :: b) = strtoul10 a := by
  cases hd : a.dropWhile isspace_c with
  | nil =>
    simp only [strtoul10, dropWhile_append_stop isspace_c a b c hsp, hd, List.nil_append]
    simp [splitSign, hminus, hplus, hdig]
  | cons x xs =>
    simp only [strtoul10, dropWhile_append_stop isspace_c a b c hsp, hd, List.cons_append]
    by_cases hx : x = '-'
    · subst hx
      simp [splitSign, takeWhile_append_stop isdigit_c xs b c hdig]
    · by_cases hx2 : x = '+'
      · subst hx2
        simp [splitSign, takeWhile_append_stop isdigit_c xs b c hdig]
      · have ht2 : List.takeWhile isdigit_c (x :: (xs ++ c :: b)) =
            List.takeWhile isdigit_c (x :: xs) := by
          rw [← List.cons_append]
          exact takeWhile_append_stop isdigit_c (x :: xs) b c hdig
        simp [splitSign, hx, hx2, ht2]

theorem scan_token_exact (maxw : Nat) (w t u : List Char)
    (hw : ∀ x ∈ w, isspace_c x = true)
    (ht : t ≠ []) (htn : ∀ x ∈ t, isspace_c x = false)
    (hlen : t.length ≤ maxw)
    (hu : ∀ c, u.head? = some c → isspace_c c = true) :
    scan_token maxw (w ++ (t ++ u)) = some (t, u) := by
  simp only [scan_token]
  cases t with
  | nil => exact absurd rfl ht
  | cons th tt =>
    have hth : isspace_c th = false := htn th (by simp)
    have hdw : (w ++ ((th :: tt) ++ u)).dropWhile isspace_c = th :: (tt ++ u) := by
      rw [dropWhile_append_all isspace_c w _ hw, List.cons_append, List.dropWhile_cons, hth]
      simp
    rw [hdw]
    have htw : (th :: (tt ++ u)).takeWhile (fun c => !isspace_c c) = th :: tt := by
      rw [← List.cons_append]
      cases u with
      | nil =>
        rw [List.append_nil]
        exact takeWhile_all _ _ (fun x hx => by simp [htn x hx])
      | cons uh ut =>
        have huh : isspace_c uh = true := hu uh rfl
        rw [takeWhile_append_stop _ _ _ _ (by simp [huh])]
        exact takeWhile_all _ _ (fun x hx => by simp [htn x hx])
    rw [htw, List.take_of_length_le hlen]
    simp only [List.isEmpty_cons, Bool.false_eq_true, if_false]
    rw [← List.cons_append, List.drop_left]

theorem scan_token_all_space (maxw : Nat) (w : List Char)
    (hw : ∀ x ∈ w, isspace_c x = true) : scan_token maxw w = none := by
  unfold scan_token
  rw [dropWhile_all_nil isspace_c w hw]
  simp

theorem sscanf_two_exact (w1 t1 w2 t2 w3 : List Char)
    (hw1 : ∀ x ∈ w1, isspace_c x = true)
    (ht1 : t1 ≠ []) (ht1n : ∀ x ∈ t1, isspace_c x = false) (hl1 : t1.length ≤ 1023)
    (hw2 : w2 ≠ []) (hw2s : ∀ x ∈ w2, isspace_c x = true)
    (ht2 : t2 ≠ []) (ht2n : ∀ x ∈ t2, isspace_c x = false) (hl2 : t2.length ≤ 84)
    (hw3 : ∀ x ∈ w3, isspace_c x = true) :
    sscanf_two (w1 ++ (t1 ++ (w2 ++ (t2 ++ w3)))) = some (t1, t2) := by
  unfold sscanf_two
  have h1 : scan_token 1023 (w1 ++ (t1 ++ (w2 ++ (t2 ++ w3)))) = some (t1, w2 ++ (t2 ++ w3)) := by
    refine scan_token_exact 1023 w1 t1 _ hw1 ht1 ht1n hl1 ?_
    intro d hd2
    cases w2 with
    | nil => exact absurd rfl hw2
    | cons wh wt =>
      simp only [List.cons_append, List.head?_cons, Option.some.injEq] at hd2
      cases hd2
      exact hw2s _ (by simp)
  have h2 : scan_token 84 (w2 ++ (t2 ++ w3)) = some (t2, w3) := by
    refine scan_token_exact 84 w2 t2 w3 hw2s ht2 ht2n hl2 ?_
    intro d hd2
    cases w3 with
    | nil => simp at hd2
    | cons xh xt =>
      simp only [List.head?_cons, Option.some.injEq] at hd2
      cases hd2
      exact hw3 _ (by simp)
  simp only [h1, h2]

theorem sscanf_two_short (w1 t1 w2 : List Char)
    (hw1 : ∀ x ∈ w1, isspace_c x = true)
    (ht1n : ∀ x ∈ t1, isspace_c x = false) (hl1 : t1.length ≤ 1023)
    (hw2 : ∀ x ∈ w2, isspace_c x = true) :
    sscanf_two (w1 ++ (t1 ++ w2)) = none := by
  unfold sscanf_two
  cases ht1 : t1 with
  | nil =>
    subst ht1
    rw [scan_token_all_space 1023 (w1 ++ ([] ++ w2)) ?_]
    intro x hx
    simp only [List.nil_append, List.mem_append] at hx
    rcases hx with h | h
    · exact hw1 x h
    · exact hw2 x h
  | cons th tt =>
    subst ht1
    have h1 : scan_token 1023 (w1 ++ ((th :: tt) ++ w2)) = some (th :: tt, w2) := by
      refine scan_token_exact 1023 w1 _ w2 hw1 (by simp) ht1n hl1 ?_
      intro d hd2
      cases hw2' : w2 with
      | nil => rw [hw2'] at hd2; simp at hd2
      | cons xh xt =>
        rw [hw2'] at hd2
        simp only [List.head?_cons, Option.some.injEq] at hd2
        cases hd2
        exact hw2 _ (by simp [hw2'])
    simp only [h1, scan_token_all_space 84 w2 hw2]

/-! ### Branch behavior of the dispatcher -/

theorem line_is_blank_cons (c : Char) (l : List Char) :
    line_is_blank (c :: l) = (isspace_c c && line_is_blank l) := by
  simp [line_is_blank]

theorem is_field_head (kw line : List Char) (hne : kw ≠ [])
    (h : is_field kw line = true) : line.head? = kw.head? := by
  cases kw with
  | nil => exact absurd rfl hne
  | cons k ks =>
    cases line with
    | nil => simp [is_field, starts_with] at h
    | cons c cs =>
      simp only [is_field, starts_with, Bool.and_eq_true, decide_eq_true_eq] at h
      simp [h.1]

theorem dispatch_open_conffiles (tty : Bool) (al : List (List Char × List Char))
    (pkg : Pkg) (st : PState) (line : List Char) (e : Nat)
    (h1 : maskHas e PFM_CONFFILES = true)
    (h2 : is_field ("Conffiles".data) line = true) :
    dispatch tty al pkg st line e = ⟨pkg, ⟨true, false, st.description⟩, false, []⟩ := by
  have hhead : line.head? = some 'C' :=
    (is_field_head ("Conffiles".data) line (by decide) h2).trans rfl
  cases line with
  | nil => cases hhead
  | cons c rest =>
    simp only [List.head?_cons, Option.some.injEq] at hhead
    subst hhead
    simp [dispatch, h1, h2]

theorem dispatch_open_description (tty : Bool) (al : List (List Char × List Char))
    (pkg : Pkg) (st : PState) (line : List Char) (e : Nat)
    (h1 : maskHas e PFM_DESCRIPTION = true)
    (h2 : is_field ("Description".data) line = true) :
    dispatch tty al pkg st line e =
      ⟨pkg, ⟨false, true, some (parse_simple ("Description".data) line)⟩, false, []⟩ := by
  have hhead : line.head? = some 'D' :=
    (is_field_head ("Description".data) line (by decide) h2).trans rfl
  cases line with
  | nil => cases hhead
  | cons c rest =>
    simp only [List.head?_cons, Option.some.injEq] at hhead
    subst hhead
    simp [dispatch, h1, h2]

theorem dispatch_cont_description (tty : Bool) (al : List (List Char × List Char))
    (pkg : Pkg) (st : PState) (line : List Char) (e : Nat)
    (h0 : line.head? = some ' ')
    (h1 : maskHas e PFM_DESCRIPTION = true)
    (h2 : st.reading_description = true) :
    dispatch tty al pkg st line e =
      ⟨pkg,
       ⟨st.reading_conffiles, st.reading_description,
        some ((st.description.getD []) ++ (if tty then '\n' :: line else line))⟩,
       false, []⟩ := by
  cases line with
  | nil => cases h0
  | cons c rest =>
    simp only [List.head?_cons, Option.some.injEq] at h0
    subst h0
    simp [dispatch, h1, h2]

theorem dispatch_cont_conffiles (tty : Bool) (al : List (List Char × List Char))
    (pkg : Pkg) (st : PState) (line : List Char) (e : Nat)
    (h0 : line.head? = some ' ')
    (hd : (maskHas e PFM_DESCRIPTION && st.reading_description) = false)
    (h1 : maskHas e PFM_CONFFILES = true)
    (h2 : st.reading_conffiles = true) :
    dispatch tty al pkg st line e =
      ⟨(parse_conffiles pkg line).1, st, false, (parse_conffiles pkg line).2⟩ := by
  cases line with
  | nil => cases h0
  | cons c rest =>
    simp only [List.head?_cons, Option.some.injEq] at h0
    subst h0
    simp [dispatch, hd, h1, h2]

theorem finish_flags_ite (C : Prop) [Decidable C] (a b : Pkg × List Diag)
    (st : PState) (r : Bool) :
    finish_flags (if C then a else b).1 st r (if C then a else b).2 =
      if C then finish_flags a.1 st r a.2 else finish_flags b.1 st r b.2 := by
  split_ifs <;> rfl

theorem dispatch_else (tty : Bool) (al : List (List Char × List Char))
    (pkg : Pkg) (st : PState) (line : List Char) (e : Nat)
    (h1 : opens_conffiles e line = false)
    (h2 : opens_description e line = false)
    (h3 : cont_description e st line = false)
    (h4 : cont_conffiles e st line = false) :
    dispatch tty al pkg st line e =
      finish_flags (fieldUpd al pkg line e).1 st (line_is_blank line)
        (fieldUpd al pkg line e).2 := by
  cases line with
  | nil => rfl
  | cons ch rest =>
    have h1' : (maskHas e PFM_CONFFILES && is_field ("Conffiles".data) (ch :: rest)) = false := h1
    have h2' : (maskHas e PFM_DESCRIPTION && is_field ("Description".data) (ch :: rest)) = false := h2
    have h3' : (decide (ch = ' ') && maskHas e PFM_DESCRIPTION && st.reading_description) = false := h3
    have h4' : (decide (ch = ' ') && !(maskHas e PFM_DESCRIPTION && st.reading_description)
        && maskHas e PFM_CONFFILES && st.reading_conffiles) = false := h4
    by_cases hA : ch = 'A'
    · subst hA; simp [dispatch, fieldUpd, finish_flags_ite, line_is_blank_cons, isspace_c]
    by_cases hC : ch = 'C'
    · subst hC; simp [dispatch, fieldUpd, finish_flags_ite, line_is_blank_cons, isspace_c, h1']
    by_cases hD : ch = 'D'
    · subst hD; simp [dispatch, fieldUpd, finish_flags_ite, line_is_blank_cons, isspace_c, h2']
    by_cases hE : ch = 'E'
    · subst hE; simp [dispatch, fieldUpd, finish_flags_ite, line_is_blank_cons, isspace_c]
    by_cases hF : ch = 'F'
    · subst hF; simp [dispatch, fieldUpd, finish_flags_ite, line_is_blank_cons, isspace_c]
    by_cases hI : ch = 'I'
    · subst hI; simp [dispatch, fieldUpd, finish_flags_ite, line_is_blank_cons, isspace_c]
    by_cases hM : ch = 'M'
    · subst hM; simp [dispatch, fieldUpd, finish_flags_ite, line_is_blank_cons, isspace_c]
    by_cases hP : ch = 'P'
    · subst hP; simp [dispatch, fieldUpd, finish_flags_ite, line_is_blank_cons, isspace_c]
    by_cases hR : ch = 'R'
    · subst hR; simp [dispatch, fieldUpd, finish_flags_ite, line_is_blank_cons, isspace_c]
    by_cases hS : ch = 'S'
    · subst hS; simp [dispatch, fieldUpd, finish_flags_ite, line_is_blank_cons, isspace_c]
    by_cases hT : ch = 'T'
    · subst hT; simp [dispatch, fieldUpd, finish_flags_ite, line_is_blank_cons, isspace_c]
    by_cases hV : ch = 'V'
    · subst hV; simp [dispatch, fieldUpd, finish_flags_ite, line_is_blank_cons, isspace_c]
    by_cases hSp : ch = ' '
    · subst hSp
      have hd3 : (maskHas e PFM_DESCRIPTION && st.reading_description) = false := by
        simpa using h3'
      have hd4 : (maskHas e PFM_CONFFILES && st.reading_conffiles) = false := by
        simpa [hd3] using h4'
      simp [dispatch, fieldUpd, handle_default, hd3, hd4]
    simp [dispatch, fieldUpd, handle_default, hA, hC, hD, hE, hF, hI, hM, hP, hR, hS, hT, hV, hSp]

theorem parse_status_keeps (pkg : Pkg) (s : List Char) :
    (parse_status pkg s).1.description = pkg.description ∧
      (parse_status pkg s).1.name = pkg.name ∧
      (parse_status pkg s).1.conffiles = pkg.conffiles := by
  unfold parse_status
  rcases sscanf_status s with _ | t <;> simp

theorem setVersionRevision_keeps (pkg : Pkg) (v : List Char) :
    (setVersionRevision pkg v).description = pkg.description ∧
      (setVersionRevision pkg v).name = pkg.name ∧
      (setVersionRevision pkg v).conffiles = pkg.conffiles := by
  simp only [setVersionRevision]
  split <;> simp

theorem parse_version_keeps (pkg : Pkg) (s : List Char) :
    (parse_version pkg s).1.description = pkg.description ∧
      (parse_version pkg s).1.name = pkg.name ∧
      (parse_version pkg s).1.conffiles = pkg.conffiles := by
  simp only [parse_version]
  split <;> split <;> simpa using setVersionRevision_keeps _ _

theorem fieldUpd_description (al : List (List Char × List Char)) (pkg : Pkg)
    (line : List Char) (e : Nat) :
    (fieldUpd al pkg line e).1.description = pkg.description := by
  unfold fieldUpd
  simp [apply_ite (fun p : Pkg × List Diag => p.1.description),
    apply_ite (fun p : Pkg => p.description),
    (parse_status_keeps pkg line).1, (parse_version_keeps pkg line).1]

theorem fieldUpd_name (al : List (List Char × List Char)) (pkg : Pkg)
    (line : List Char) (e : Nat)
    (h : (maskHas e PFM_PACKAGE && is_field ("Package".data) line) = false) :
    (fieldUpd al pkg line e).1.name = pkg.name := by
  unfold fieldUpd
  simp [apply_ite (fun p : Pkg × List Diag => p.1.name), h,
    apply_ite (fun p : Pkg => p.name),
    (parse_status_keeps pkg line).2.1, (parse_version_keeps pkg line).2.1]

theorem fieldUpd_conffiles (al : List (List Char × List Char)) (pkg : Pkg)
    (line : List Char) (e : Nat) :
    (fieldUpd al pkg line e).1.conffiles = pkg.conffiles := by
  unfold fieldUpd
  simp [apply_ite (fun p : Pkg × List Diag => p.1.conffiles),
    apply_ite (fun p : Pkg => p.conffiles),
    (parse_status_keeps pkg line).2.2, (parse_version_keeps pkg line).2.2]

theorem starts_with_get? (k l : List Char) (h : starts_with k l = true)
    (i : Nat) (hi : i < k.length) : l.get? i = k.get? i := by
  induction k generalizing l i with
  | nil => simp at hi
  | cons kh kt ih =>
    cases l with
    | nil => simp [starts_with] at h
    | cons c cs =>
      simp only [starts_with, Bool.and_eq_true, decide_eq_true_eq] at h
      cases i with
      | zero => simp [h.1]
      | succ n =>
        simp only [List.get?]
        exact ih cs h.2 n (Nat.lt_of_succ_lt_succ hi)

theorem is_field_excl (kw1 kw2 line : List Char) (i : Nat)
    (hi1 : i < kw1.length) (hi2 : i < kw2.length)
    (hne : kw1.get? i ≠ kw2.get? i)
    (h : is_field kw1 line = true) : is_field kw2 line = false := by
  cases hb : is_field kw2 line with
  | false => rfl
  | true =>
    have e1 := starts_with_get? kw1 line h i hi1
    have e2 := starts_with_get? kw2 line hb i hi2
    exact absurd (e1.symm.trans e2) hne


/-! ### Per-field dispatch behavior under the visibility mask -/

theorem dispatch_disabled_architecture (tty : Bool) (al : List (List Char × List Char))
    (pkg : Pkg) (st : PState) (line : List Char) (e : Nat)
    (hf : is_field (kwOf PField.architecture) line = true)
    (hbit : maskHas e (pfmBit PField.architecture) = false) :
    dispatch tty al pkg st line e = handle_default pkg st line := by
  have hb : maskHas e PFM_ARCHITECTURE = false := hbit
  have hf2 : is_field (("Architecture").data) line = true := hf
  have hhead : line.head? = some 'A' :=
    (is_field_head (("Architecture").data) line (by decide) hf2).trans rfl
  have hx0 : is_field (("Auto-Installed").data) line = false :=
    is_field_excl (("Architecture").data) (("Auto-Installed").data) line 1 (by decide) (by decide) (by decide) hf2
  cases line with
  | nil => cases hhead
  | cons c rest =>
    simp only [List.head?_cons, Option.some.injEq] at hhead
    subst hhead
    simp [dispatch, handle_default, line_is_blank_cons, isspace_c, hb, hf2, hx0]

theorem dispatch_enabled_architecture (tty : Bool) (al : List (List Char × List Char))
    (pkg : Pkg) (st : PState) (line : List Char) (e : Nat)
    (hf : is_field (kwOf PField.architecture) line = true)
    (hbit : maskHas e (pfmBit PField.architecture) = true) :
    dispatch tty al pkg st line e = dispatch tty al pkg st line PFM_ALL := by
  have hb : maskHas e PFM_ARCHITECTURE = true := hbit
  have hall : maskHas PFM_ALL PFM_ARCHITECTURE = true := by decide
  have hf2 : is_field (("Architecture").data) line = true := hf
  have hhead : line.head? = some 'A' :=
    (is_field_head (("Architecture").data) line (by decide) hf2).trans rfl
  have hx0 : is_field (("Auto-Installed").data) line = false :=
    is_field_excl (("Architecture").data) (("Auto-Installed").data) line 1 (by decide) (by decide) (by decide) hf2
  cases line with
  | nil => cases hhead
  | cons c rest =>
    simp only [List.head?_cons, Option.some.injEq] at hhead
    subst hhead
    simp [dispatch, hb, hall, hf2, hx0]

theorem dispatch_disabled_autoInstalled (tty : Bool) (al : List (List Char × List Char))
    (pkg : Pkg) (st : PState) (line : List Char) (e : Nat)
    (hf : is_field (kwOf PField.autoInstalled) line = true)
    (hbit : maskHas e (pfmBit PField.autoInstalled) = false) :
    dispatch tty al pkg st line e = handle_default pkg st line := by
  have hb : maskHas e PFM_AUTO_INSTALLED = false := hbit
  have hf2 : is_field (("Auto-Installed").data) line = true := hf
  have hhead : line.head? = some 'A' :=
    (is_field_head (("Auto-Installed").data) line (by decide) hf2).trans rfl
  have hx0 : is_field (("Architecture").data) line = false :=
    is_field_excl (("Auto-Installed").data) (("Architecture").data) line 1 (by decide) (by decide) (by decide) hf2
  cases line with
  | nil => cases hhead
  | cons c rest =>
    simp only [List.head?_cons, Option.some.injEq] at hhead
    subst hhead
    simp [dispatch, handle_default, line_is_blank_cons, isspace_c, hb, hf2, hx0]

theorem dispatch_enabled_autoInstalled (tty : Bool) (al : List (List Char × List Char))
    (pkg : Pkg) (st : PState) (line : List Char) (e : Nat)
    (hf : is_field (kwOf PField.autoInstalled) line = true)
    (hbit : maskHas e (pfmBit PField.autoInstalled) = true) :
    dispatch tty al pkg st line e = dispatch tty al pkg st line PFM_ALL := by
  have hb : maskHas e PFM_AUTO_INSTALLED = true := hbit
  have hall : maskHas PFM_ALL PFM_AUTO_INSTALLED = true := by decide
  have hf2 : is_field (("Auto-Installed").data) line = true := hf
  have hhead : line.head? = some 'A' :=
    (is_field_head (("Auto-Installed").data) line (by decide) hf2).trans rfl
  have hx0 : is_field (("Architecture").data) line = false :=
    is_field_excl (("Auto-Installed").data) (("Architecture").data) line 1 (by decide) (by decide) (by decide) hf2
  cases line with
  | nil => cases hhead
  | cons c rest =>
    simp only [List.head?_cons, Option.some.injEq] at hhead
    subst hhead
    simp [dispatch, hb, hall, hf2, hx0]

theorem dispatch_disabled_conffiles (tty : Bool) (al : List (List Char × List Char))
    (pkg : Pkg) (st : PState) (line : List Char) (e : Nat)
    (hf : is_field (kwOf PField.conffiles) line = true)
    (hbit : maskHas e (pfmBit PField.conffiles) = false) :
    dispatch tty al pkg st line e = handle_default pkg st line := by
  have hb : maskHas e PFM_CONFFILES = false := hbit
  have hf2 : is_field (("Conffiles").data) line = true := hf
  have hhead : line.head? = some 'C' :=
    (is_field_head (("Conffiles").data) line (by decide) hf2).trans rfl
  have hx0 : is_field (("Conflicts").data) line = false :=
    is_field_excl (("Conffiles").data) (("Conflicts").data) line 4 (by decide) (by decide) (by decide) hf2
  cases line with
  | nil => cases hhead
  | cons c rest =>
    simp only [List.head?_cons, Option.some.injEq] at hhead
    subst hhead
    simp [dispatch, handle_default, line_is_blank_cons, isspace_c, hb, hf2, hx0]

theorem dispatch_enabled_conffiles (tty : Bool) (al : List (List Char × List Char))
    (pkg : Pkg) (st : PState) (line : List Char) (e : Nat)
    (hf : is_field (kwOf PField.conffiles) line = true)
    (hbit : maskHas e (pfmBit PField.conffiles) = true) :
    dispatch tty al pkg st line e = dispatch tty al pkg st line PFM_ALL := by
  have hb : maskHas e PFM_CONFFILES = true := hbit
  have hall : maskHas PFM_ALL PFM_CONFFILES = true := by decide
  have hf2 : is_field (("Conffiles").data) line = true := hf
  have hhead : line.head? = some 'C' :=
    (is_field_head (("Conffiles").data) line (by decide) hf2).trans rfl
  have hx0 : is_field (("Conflicts").data) line = false :=
    is_field_excl (("Conffiles").data) (("Conflicts").data) line 4 (by decide) (by decide) (by decide) hf2
  cases line with
  | nil => cases hhead
  | cons c rest =>
    simp only [List.head?_cons, Option.some.injEq] at hhead
    subst hhead
    simp [dispatch, hb, hall, hf2, hx0]

theorem dispatch_disabled_conflicts (tty : Bool) (al : List (List Char × List Char))
    (pkg : Pkg) (st : PState) (line : List Char) (e : Nat)
    (hf : is_field (kwOf PField.conflicts) line = true)
    (hbit : maskHas e (pfmBit PField.conflicts) = false) :
    dispatch tty al pkg st line e = handle_default pkg st line := by
  have hb : maskHas e PFM_CONFLICTS = false := hbit
  have hf2 : is_field (("Conflicts").data) line = true := hf
  have hhead : line.head? = some 'C' :=
    (is_field_head (("Conflicts").data) line (by decide) hf2).trans rfl
  have hx0 : is_field (("Conffiles").data) line = false :=
    is_field_excl (("Conflicts").data) (("Conffiles").data) line 4 (by decide) (by decide) (by decide) hf2
  cases line with
  | nil => cases hhead
  | cons c rest =>
    simp only [List.head?_cons, Option.some.injEq] at hhead
    subst hhead
    simp [dispatch, handle_default, line_is_blank_cons, isspace_c, hb, hf2, hx0]

theorem dispatch_enabled_conflicts (tty : Bool) (al : List (List Char × List Char))
    (pkg : Pkg) (st : PState) (line : List Char) (e : Nat)
    (hf : is_field (kwOf PField.conflicts) line = true)
    (hbit : maskHas e (pfmBit PField.conflicts) = true) :
    dispatch tty al pkg st line e = dispatch tty al pkg st line PFM_ALL := by
  have hb : maskHas e PFM_CONFLICTS = true := hbit
  have hall : maskHas PFM_ALL PFM_CONFLICTS = true := by decide
  have hf2 : is_field (("Conflicts").data) line = true := hf
  have hhead : line.head? = some 'C' :=
    (is_field_head (("Conflicts").data) line (by decide) hf2).trans rfl
  have hx0 : is_field (("Conffiles").data) line = false :=
    is_field_excl (("Conflicts").data) (("Conffiles").data) line 4 (by decide) (by decide) (by decide) hf2
  cases line with
  | nil => cases hhead
  | cons c rest =>
    simp only [List.head?_cons, Option.some.injEq] at hhead
    subst hhead
    simp [dispatch, hb, hall, hf2, hx0]

theorem dispatch_disabled_depends (tty : Bool) (al : List (List Char × List Char))
    (pkg : Pkg) (st : PState) (line : List Char) (e : Nat)
    (hf : is_field (kwOf PField.depends) line = true)
    (hbit : maskHas e (pfmBit PField.depends) = false) :
    dispatch tty al pkg st line e = handle_default pkg st line := by
  have hb : maskHas e PFM_DEPENDS = false := hbit
  have hf2 : is_field (("Depends").data) line = true := hf
  have hhead : line.head? = some 'D' :=
    (is_field_head (("Depends").data) line (by decide) hf2).trans rfl
  have hx0 : is_field (("Description").data) line = false :=
    is_field_excl (("Depends").data) (("Description").data) line 2 (by decide) (by decide) (by decide) hf2
  cases line with
  | nil => cases hhead
  | cons c rest =>
    simp only [List.head?_cons, Option.some.injEq] at hhead
    subst hhead
    simp [dispatch, handle_default, line_is_blank_cons, isspace_c, hb, hf2, hx0]

theorem dispatch_enabled_depends (tty : Bool) (al : List (List Char × List Char))
    (pkg : Pkg) (st : PState) (line : List Char) (e : Nat)
    (hf : is_field (kwOf PField.depends) line = true)
    (hbit : maskHas e (pfmBit PField.depends) = true) :
    dispatch tty al pkg st line e = dispatch tty al pkg st line PFM_ALL := by
  have hb : maskHas e PFM_DEPENDS = true := hbit
  have hall : maskHas PFM_ALL PFM_DEPENDS = true := by decide
  have hf2 : is_field (("Depends").data) line = true := hf
  have hhead : line.head? = some 'D' :=
    (is_field_head (("Depends").data) line (by decide) hf2).trans rfl
  have hx0 : is_field (("Description").data) line = false :=
    is_field_excl (("Depends").data) (("Description").data) line 2 (by decide) (by decide) (by decide) hf2
  cases line with
  | nil => cases hhead
  | cons c rest =>
    simp only [List.head?_cons, Option.some.injEq] at hhead
    subst hhead
    simp [dispatch, hb, hall, hf2, hx0]

theorem dispatch_disabled_descriptionField (tty : Bool) (al : List (List Char × List Char))
    (pkg : Pkg) (st : PState) (line : List Char) (e : Nat)
    (hf : is_field (kwOf PField.descriptionField) line = true)
    (hbit : maskHas e (pfmBit PField.descriptionField) = false) :
    dispatch tty al pkg st line e = handle_default pkg st line := by
  have hb : maskHas e PFM_DESCRIPTION = false := hbit
  have hf2 : is_field (("Description").data) line = true := hf
  have hhead : line.head? = some 'D' :=
    (is_field_head (("Description").data) line (by decide) hf2).trans rfl
  have hx0 : is_field (("Depends").data) line = false :=
    is_field_excl (("Description").data) (("Depends").data) line 2 (by decide) (by decide) (by decide) hf2
  cases line with
  | nil => cases hhead
  | cons c rest =>
    simp only [List.head?_cons, Option.some.injEq] at hhead
    subst hhead
    simp [dispatch, handle_default, line_is_blank_cons, isspace_c, hb, hf2, hx0]

theorem dispatch_enabled_descriptionField (tty : Bool) (al : List (List Char × List Char))
    (pkg : Pkg) (st : PState) (line : List Char) (e : Nat)
    (hf : is_field (kwOf PField.descriptionField) line = true)
    (hbit : maskHas e (pfmBit PField.descriptionField) = true) :
    dispatch tty al pkg st line e = dispatch tty al pkg st line PFM_ALL := by
  have hb : maskHas e PFM_DESCRIPTION = true := hbit
  have hall : maskHas PFM_ALL PFM_DESCRIPTION = true := by decide
  have hf2 : is_field (("Description").data) line = true := hf
  have hhead : line.head? = some 'D' :=
    (is_field_head (("Description").data) line (by decide) hf2).trans rfl
  have hx0 : is_field (("Depends").data) line = false :=
    is_field_excl (("Description").data) (("Depends").data) line 2 (by decide) (by decide) (by decide) hf2
  cases line with
  | nil => cases hhead
  | cons c rest =>
    simp only [List.head?_cons, Option.some.injEq] at hhead
    subst hhead
    simp [dispatch, hb, hall, hf2, hx0]

theorem dispatch_disabled_essential (tty : Bool) (al : List (List Char × List Char))
    (pkg : Pkg) (st : PState) (line : List Char) (e : Nat)
    (hf : is_field (kwOf PField.essential) line = true)
    (hbit : maskHas e (pfmBit PField.essential) = false) :
    dispatch tty al pkg st line e = handle_default pkg st line := by
  have hb : maskHas e PFM_ESSENTIAL = false := hbit
  have hf2 : is_field (("Essential").data) line = true := hf
  have hhead : line.head? = some 'E' :=
    (is_field_head (("Essential").data) line (by decide) hf2).trans rfl
  cases line with
  | nil => cases hhead
  | cons c rest =>
    simp only [List.head?_cons, Option.some.injEq] at hhead
    subst hhead
    simp [dispatch, handle_default, line_is_blank_cons, isspace_c, hb, hf2]

theorem dispatch_enabled_essential (tty : Bool) (al : List (List Char × List Char))
    (pkg : Pkg) (st : PState) (line : List Char) (e : Nat)
    (hf : is_field (kwOf PField.essential) line = true)
    (hbit : maskHas e (pfmBit PField.essential) = true) :
    dispatch tty al pkg st line e = dispatch tty al pkg st line PFM_ALL := by
  have hb : maskHas e PFM_ESSENTIAL = true := hbit
  have hall : maskHas PFM_ALL PFM_ESSENTIAL = true := by decide
  have hf2 : is_field (("Essential").data) line = true := hf
  have hhead : line.head? = some 'E' :=
    (is_field_head (("Essential").data) line (by decide) hf2).trans rfl
  cases line with
  | nil => cases hhead
  | cons c rest =>
    simp only [List.head?_cons, Option.some.injEq] at hhead
    subst hhead
    simp [dispatch, hb, hall, hf2]

theorem dispatch_disabled_filename (tty : Bool) (al : List (List Char × List Char))
    (pkg : Pkg) (st : PState) (line : List Char) (e : Nat)
    (hf : is_field (kwOf PField.filename) line = true)
    (hbit : maskHas e (pfmBit PField.filename) = false) :
    dispatch tty al pkg st line e = handle_default pkg st line := by
  have hb : maskHas e PFM_FILENAME = false := hbit
  have hf2 : is_field (("Filename").data) line = true := hf
  have hhead : line.head? = some 'F' :=
    (is_field_head (("Filename").data) line (by decide) hf2).trans rfl
  cases line with
  | nil => cases hhead
  | cons c rest =>
    simp only [List.head?_cons, Option.some.injEq] at hhead
    subst hhead
    simp [dispatch, handle_default, line_is_blank_cons, isspace_c, hb, hf2]

theorem dispatch_enabled_filename (tty : Bool) (al : List (List Char × List Char))
    (pkg : Pkg) (st : PState) (line : List Char) (e : Nat)
    (hf : is_field (kwOf PField.filename) line = true)
    (hbit : maskHas e (pfmBit PField.filename) = true) :
    dispatch tty al pkg st line e = dispatch tty al pkg st line PFM_ALL := by
  have hb : maskHas e PFM_FILENAME = true := hbit
  have hall : maskHas PFM_ALL PFM_FILENAME = true := by decide
  have hf2 : is_field (("Filename").data) line = true := hf
  have hhead : line.head? = some 'F' :=
    (is_field_head (("Filename").data) line (by decide) hf2).trans rfl
  cases line with
  | nil => cases hhead
  | cons c rest =>
    simp only [List.head?_cons, Option.some.injEq] at hhead
    subst hhead
    simp [dispatch, hb, hall, hf2]

theorem dispatch_disabled_installedSize (tty : Bool) (al : List (List Char × List Char))
    (pkg : Pkg) (st : PState) (line : List Char) (e : Nat)
    (hf : is_field (kwOf PField.installedSize) line = true)
    (hbit : maskHas e (pfmBit PField.installedSize) = false) :
    dispatch tty al pkg st line e = handle_default pkg st line := by
  have hb : maskHas e PFM_INSTALLED_SIZE = false := hbit
  have hf2 : is_field (("Installed-Size").data) line = true := hf
  have hhead : line.head? = some 'I' :=
    (is_field_head (("Installed-Size").data) line (by decide) hf2).trans rfl
  have hx0 : is_field (("Installed-Time").data) line = false :=
    is_field_excl (("Installed-Size").data) (("Installed-Time").data) line 10 (by decide) (by decide) (by decide) hf2
  cases line with
  | nil => cases hhead
  | cons c rest =>
    simp only [List.head?_cons, Option.some.injEq] at hhead
    subst hhead
    simp [dispatch, handle_default, line_is_blank_cons, isspace_c, hb, hf2, hx0]

theorem dispatch_enabled_installedSize (tty : Bool) (al : List (List Char × List Char))
    (pkg : Pkg) (st : PState) (line : List Char) (e : Nat)
    (hf : is_field (kwOf PField.installedSize) line = true)
    (hbit : maskHas e (pfmBit PField.installedSize) = true) :
    dispatch tty al pkg st line e = dispatch tty al pkg st line PFM_ALL := by
  have hb : maskHas e PFM_INSTALLED_SIZE = true := hbit
  have hall : maskHas PFM_ALL PFM_INSTALLED_SIZE = true := by decide
  have hf2 : is_field (("Installed-Size").data) line = true := hf
  have hhead : line.head? = some 'I' :=
    (is_field_head (("Installed-Size").data) line (by decide) hf2).trans rfl
  have hx0 : is_field (("Installed-Time").data) line = false :=
    is_field_excl (("Installed-Size").data) (("Installed-Time").data) line 10 (by decide) (by decide) (by decide) hf2
  cases line with
  | nil => cases hhead
  | cons c rest =>
    simp only [List.head?_cons, Option.some.injEq] at hhead
    subst hhead
    simp [dispatch, hb, hall, hf2, hx0]

theorem dispatch_disabled_installedTime (tty : Bool) (al : List (List Char × List Char))
    (pkg : Pkg) (st : PState) (line : List Char) (e : Nat)
    (hf : is_field (kwOf PField.installedTime) line = true)
    (hbit : maskHas e (pfmBit PField.installedTime) = false) :
    dispatch tty al pkg st line e = handle_default pkg st line := by
  have hb : maskHas e PFM_INSTALLED_TIME = false := hbit
  have hf2 : is_field (("Installed-Time").data) line = true := hf
  have hhead : line.head? = some 'I' :=
    (is_field_head (("Installed-Time").data) line (by decide) hf2).trans rfl
  have hx0 : is_field (("Installed-Size").data) line = false :=
    is_field_excl (("Installed-Time").data) (("Installed-Size").data) line 10 (by decide) (by decide) (by decide) hf2
  cases line with
  | nil => cases hhead
  | cons c rest =>
    simp only [List.head?_cons, Option.some.injEq] at hhead
    subst hhead
    simp [dispatch, handle_default, line_is_blank_cons, isspace_c, hb, hf2, hx0]

theorem dispatch_enabled_installedTime (tty : Bool) (al : List (List Char × List Char))
    (pkg : Pkg) (st : PState) (line : List Char) (e : Nat)
    (hf : is_field (kwOf PField.installedTime) line = true)
    (hbit : maskHas e (pfmBit PField.installedTime) = true) :
    dispatch tty al pkg st line e = dispatch tty al pkg st line PFM_ALL := by
  have hb : maskHas e PFM_INSTALLED_TIME = true := hbit
  have hall : maskHas PFM_ALL PFM_INSTALLED_TIME = true := by decide
  have hf2 : is_field (("Installed-Time").data) line = true := hf
  have hhead : line.head? = some 'I' :=
    (is_field_head (("Installed-Time").data) line (by decide) hf2).trans rfl
  have hx0 : is_field (("Installed-Size").data) line = false :=
    is_field_excl (("Installed-Time").data) (("Installed-Size").data) line 10 (by decide) (by decide) (by decide) hf2
  cases line with
  | nil => cases hhead
  | cons c rest =>
    simp only [List.head?_cons, Option.some.injEq] at hhead
    subst hhead
    simp [dispatch, hb, hall, hf2, hx0]

theorem dispatch_disabled_maintainer (tty : Bool) (al : List (List Char × List Char))
    (pkg : Pkg) (st : PState) (line : List Char) (e : Nat)
    (hf : is_field (kwOf PField.maintainer) line = true)
    (hbit : maskHas e (pfmBit PField.maintainer) = false) :
    dispatch tty al pkg st line e = handle_default pkg st line := by
  have hb : maskHas e PFM_MAINTAINER = false := hbit
  have hf2 : is_field (("Maintainer").data) line = true := hf
  have hhead : line.head? = some 'M' :=
    (is_field_head (("Maintainer").data) line (by decide) hf2).trans rfl
  have hx0 : is_field (("MD5sum:").data) line = false :=
    is_field_excl (("Maintainer").data) (("MD5sum:").data) line 1 (by decide) (by decide) (by decide) hf2
  have hx1 : is_field (("MD5Sum:").data) line = false :=
    is_field_excl (("Maintainer").data) (("MD5Sum:").data) line 1 (by decide) (by decide) (by decide) hf2
  cases line with
  | nil => cases hhead
  | cons c rest =>
    simp only [List.head?_cons, Option.some.injEq] at hhead
    subst hhead
    simp [dispatch, handle_default, line_is_blank_cons, isspace_c, hb, hf2, hx0, hx1]

theorem dispatch_enabled_maintainer (tty : Bool) (al : List (List Char × List Char))
    (pkg : Pkg) (st : PState) (line : List Char) (e : Nat)
    (hf : is_field (kwOf PField.maintainer) line = true)
    (hbit : maskHas e (pfmBit PField.maintainer) = true) :
    dispatch tty al pkg st line e = dispatch tty al pkg st line PFM_ALL := by
  have hb : maskHas e PFM_MAINTAINER = true := hbit
  have hall : maskHas PFM_ALL PFM_MAINTAINER = true := by decide
  have hf2 : is_field (("Maintainer").data) line = true := hf
  have hhead : line.head? = some 'M' :=
    (is_field_head (("Maintainer").data) line (by decide) hf2).trans rfl
  have hx0 : is_field (("MD5sum:").data) line = false :=
    is_field_excl (("Maintainer").data) (("MD5sum:").data) line 1 (by decide) (by decide) (by decide) hf2
  have hx1 : is_field (("MD5Sum:").data) line = false :=
    is_field_excl (("Maintainer").data) (("MD5Sum:").data) line 1 (by decide) (by decide) (by decide) hf2
  cases line with
  | nil => cases hhead
  | cons c rest =>
    simp only [List.head?_cons, Option.some.injEq] at hhead
    subst hhead
    simp [dispatch, hb, hall, hf2, hx0, hx1]

theorem dispatch_disabled_md5sum (tty : Bool) (al : List (List Char × List Char))
    (pkg : Pkg) (st : PState) (line : List Char) (e : Nat)
    (hf : is_field (kwOf PField.md5sum) line = true)
    (hbit : maskHas e (pfmBit PField.md5sum) = false) :
    dispatch tty al pkg st line e = handle_default pkg st line := by
  have hb : maskHas e PFM_MD5SUM = false := hbit
  have hf2 : is_field (("MD5sum:").data) line = true := hf
  have hhead : line.head? = some 'M' :=
    (is_field_head (("MD5sum:").data) line (by decide) hf2).trans rfl
  have hx0 : is_field (("MD5Sum:").data) line = false :=
    is_field_excl (("MD5sum:").data) (("MD5Sum:").data) line 3 (by decide) (by decide) (by decide) hf2
  have hx1 : is_field (("Maintainer").data) line = false :=
    is_field_excl (("MD5sum:").data) (("Maintainer").data) line 1 (by decide) (by decide) (by decide) hf2
  cases line with
  | nil => cases hhead
  | cons c rest =>
    simp only [List.head?_cons, Option.some.injEq] at hhead
    subst hhead
    simp [dispatch, handle_default, line_is_blank_cons, isspace_c, hb, hf2, hx0, hx1]

theorem dispatch_enabled_md5sum (tty : Bool) (al : List (List Char × List Char))
    (pkg : Pkg) (st : PState) (line : List Char) (e : Nat)
    (hf : is_field (kwOf PField.md5sum) line = true)
    (hbit : maskHas e (pfmBit PField.md5sum) = true) :
    dispatch tty al pkg st line e = dispatch tty al pkg st line PFM_ALL := by
  have hb : maskHas e PFM_MD5SUM = true := hbit
  have hall : maskHas PFM_ALL PFM_MD5SUM = true := by decide
  have hf2 : is_field (("MD5sum:").data) line = true := hf
  have hhead : line.head? = some 'M' :=
    (is_field_head (("MD5sum:").data) line (by decide) hf2).trans rfl
  have hx0 : is_field (("MD5Sum:").data) line = false :=
    is_field_excl (("MD5sum:").data) (("MD5Sum:").data) line 3 (by decide) (by decide) (by decide) hf2
  have hx1 : is_field (("Maintainer").data) line = false :=
    is_field_excl (("MD5sum:").data) (("Maintainer").data) line 1 (by decide) (by decide) (by decide) hf2
  cases line with
  | nil => cases hhead
  | cons c rest =>
    simp only [List.head?_cons, Option.some.injEq] at hhead
    subst hhead
    simp [dispatch, hb, hall, hf2, hx0, hx1]

theorem dispatch_disabled_md5sumLegacy (tty : Bool) (al : List (List Char × List Char))
    (pkg : Pkg) (st : PState) (line : List Char) (e : Nat)
    (hf : is_field (kwOf PField.md5sumLegacy) line = true)
    (hbit : maskHas e (pfmBit PField.md5sumLegacy) = false) :
    dispatch tty al pkg st line e = handle_default pkg st line := by
  have hb : maskHas e PFM_MD5SUM = false := hbit
  have hf2 : is_field (("MD5Sum:").data) line = true := hf
  have hhead : line.head? = some 'M' :=
    (is_field_head (("MD5Sum:").data) line (by decide) hf2).trans rfl
  have hx0 : is_field (("MD5sum:").data) line = false :=
    is_field_excl (("MD5Sum:").data) (("MD5sum:").data) line 3 (by decide) (by decide) (by decide) hf2
  have hx1 : is_field (("Maintainer").data) line = false :=
    is_field_excl (("MD5Sum:").data) (("Maintainer").data) line 1 (by decide) (by decide) (by decide) hf2
  cases line with
  | nil => cases hhead
  | cons c rest =>
    simp only [List.head?_cons, Option.some.injEq] at hhead
    subst hhead
    simp [dispatch, handle_default, line_is_blank_cons, isspace_c, hb, hf2, hx0, hx1]

theorem dispatch_enabled_md5sumLegacy (tty : Bool) (al : List (List Char × List Char))
    (pkg : Pkg) (st : PState) (line : List Char) (e : Nat)
    (hf : is_field (kwOf PField.md5sumLegacy) line = true)
    (hbit : maskHas e (pfmBit PField.md5sumLegacy) = true) :
    dispatch tty al pkg st line e = dispatch tty al pkg st line PFM_ALL := by
  have hb : maskHas e PFM_MD5SUM = true := hbit
  have hall : maskHas PFM_ALL PFM_MD5SUM = true := by decide
  have hf2 : is_field (("MD5Sum:").data) line = true := hf
  have hhead : line.head? = some 'M' :=
    (is_field_head (("MD5Sum:").data) line (by decide) hf2).trans rfl
  have hx0 : is_field (("MD5sum:").data) line = false :=
    is_field_excl (("MD5Sum:").data) (("MD5sum:").data) line 3 (by decide) (by decide) (by decide) hf2
  have hx1 : is_field (("Maintainer").data) line = false :=
    is_field_excl (("MD5Sum:").data) (("Maintainer").data) line 1 (by decide) (by decide) (by decide) hf2
  cases line with
  | nil => cases hhead
  | cons c rest =>
    simp only [List.head?_cons, Option.some.injEq] at hhead
    subst hhead
    simp [dispatch, hb, hall, hf2, hx0, hx1]

theorem dispatch_disabled_package (tty : Bool) (al : List (List Char × List Char))
    (pkg : Pkg) (st : PState) (line : List Char) (e : Nat)
    (hf : is_field (kwOf PField.package) line = true)
    (hbit : maskHas e (pfmBit PField.package) = false) :
    dispatch tty al pkg st line e = handle_default pkg st line := by
  have hb : maskHas e PFM_PACKAGE = false := hbit
  have hf2 : is_field (("Package").data) line = true := hf
  have hhead : line.head? = some 'P' :=
    (is_field_head (("Package").data) line (by decide) hf2).trans rfl
  have hx0 : is_field (("Priority").data) line = false :=
    is_field_excl (("Package").data) (("Priority").data) line 1 (by decide) (by decide) (by decide) hf2
  have hx1 : is_field (("Provides").data) line = false :=
    is_field_excl (("Package").data) (("Provides").data) line 1 (by decide) (by decide) (by decide) hf2
  have hx2 : is_field (("Pre-Depends").data) line = false :=
    is_field_excl (("Package").data) (("Pre-Depends").data) line 1 (by decide) (by decide) (by decide) hf2
  cases line with
  | nil => cases hhead
  | cons c rest =>
    simp only [List.head?_cons, Option.some.injEq] at hhead
    subst hhead
    simp [dispatch, handle_default, line_is_blank_cons, isspace_c, hb, hf2, hx0, hx1, hx2]

theorem dispatch_enabled_package (tty : Bool) (al : List (List Char × List Char))
    (pkg : Pkg) (st : PState) (line : List Char) (e : Nat)
    (hf : is_field (kwOf PField.package) line = true)
    (hbit : maskHas e (pfmBit PField.package) = true) :
    dispatch tty al pkg st line e = dispatch tty al pkg st line PFM_ALL := by
  have hb : maskHas e PFM_PACKAGE = true := hbit
  have hall : maskHas PFM_ALL PFM_PACKAGE = true := by decide
  have hf2 : is_field (("Package").data) line = true := hf
  have hhead : line.head? = some 'P' :=
    (is_field_head (("Package").data) line (by decide) hf2).trans rfl
  have hx0 : is_field (("Priority").data) line = false :=
    is_field_excl (("Package").data) (("Priority").data) line 1 (by decide) (by decide) (by decide) hf2
  have hx1 : is_field (("Provides").data) line = false :=
    is_field_excl (("Package").data) (("Provides").data) line 1 (by decide) (by decide) (by decide) hf2
  have hx2 : is_field (("Pre-Depends").data) line = false :=
    is_field_excl (("Package").data) (("Pre-Depends").data) line 1 (by decide) (by decide) (by decide) hf2
  cases line with
  | nil => cases hhead
  | cons c rest =>
    simp only [List.head?_cons, Option.some.injEq] at hhead
    subst hhead
    simp [dispatch, hb, hall, hf2, hx0, hx1, hx2]

theorem dispatch_disabled_preDepends (tty : Bool) (al : List (List Char × List Char))
    (pkg : Pkg) (st : PState) (line : List Char) (e : Nat)
    (hf : is_field (kwOf PField.preDepends) line = true)
    (hbit : maskHas e (pfmBit PField.preDepends) = false) :
    dispatch tty al pkg st line e = handle_default pkg st line := by
  have hb : maskHas e PFM_PRE_DEPENDS = false := hbit
  have hf2 : is_field (("Pre-Depends").data) line = true := hf
  have hhead : line.head? = some 'P' :=
    (is_field_head (("Pre-Depends").data) line (by decide) hf2).trans rfl
  have hx0 : is_field (("Package").data) line = false :=
    is_field_excl (("Pre-Depends").data) (("Package").data) line 1 (by decide) (by decide) (by decide) hf2
  have hx1 : is_field (("Priority").data) line = false :=
    is_field_excl (("Pre-Depends").data) (("Priority").data) line 2 (by decide) (by decide) (by decide) hf2
  have hx2 : is_field (("Provides").data) line = false :=
    is_field_excl (("Pre-Depends").data) (("Provides").data) line 2 (by decide) (by decide) (by decide) hf2
  cases line with
  | nil => cases hhead
  | cons c rest =>
    simp only [List.head?_cons, Option.some.injEq] at hhead
    subst hhead
    simp [dispatch, handle_default, line_is_blank_cons, isspace_c, hb, hf2, hx0, hx1, hx2]

theorem dispatch_enabled_preDepends (tty : Bool) (al : List (List Char × List Char))
    (pkg : Pkg) (st : PState) (line : List Char) (e : Nat)
    (hf : is_field (kwOf PField.preDepends) line = true)
    (hbit : maskHas e (pfmBit PField.preDepends) = true) :
    dispatch tty al pkg st line e = dispatch tty al pkg st line PFM_ALL := by
  have hb : maskHas e PFM_PRE_DEPENDS = true := hbit
  have hall : maskHas PFM_ALL PFM_PRE_DEPENDS = true := by decide
  have hf2 : is_field (("Pre-Depends").data) line = true := hf
  have hhead : line.head? = some 'P' :=
    (is_field_head (("Pre-Depends").data) line (by decide) hf2).trans rfl
  have hx0 : is_field (("Package").data) line = false :=
    is_field_excl (("Pre-Depends").data) (("Package").data) line 1 (by decide) (by decide) (by decide) hf2
  have hx1 : is_field (("Priority").data) line = false :=
    is_field_excl (("Pre-Depends").data) (("Priority").data) line 2 (by decide) (by decide) (by decide) hf2
  have hx2 : is_field (("Provides").data) line = false :=
    is_field_excl (("Pre-Depends").data) (("Provides").data) line 2 (by decide) (by decide) (by decide) hf2
  cases line with
  | nil => cases hhead
  | cons c rest =>
    simp only [List.head?_cons, Option.some.injEq] at hhead
    subst hhead
    simp [dispatch, hb, hall, hf2, hx0, hx1, hx2]

theorem dispatch_disabled_priorityField (tty : Bool) (al : List (List Char × List Char))
    (pkg : Pkg) (st : PState) (line : List Char) (e : Nat)
    (hf : is_field (kwOf PField.priorityField) line = true)
    (hbit : maskHas e (pfmBit PField.priorityField) = false) :
    dispatch tty al pkg st line e = handle_default pkg st line := by
  have hb : maskHas e PFM_PRIORITY = false := hbit
  have hf2 : is_field (("Priority").data) line = true := hf
  have hhead : line.head? = some 'P' :=
    (is_field_head (("Priority").data) line (by decide) hf2).trans rfl
  have hx0 : is_field (("Package").data) line = false :=
    is_field_excl (("Priority").data) (("Package").data) line 1 (by decide) (by decide) (by decide) hf2
  have hx1 : is_field (("Provides").data) line = false :=
    is_field_excl (("Priority").data) (("Provides").data) line 2 (by decide) (by decide) (by decide) hf2
  have hx2 : is_field (("Pre-Depends").data) line = false :=
    is_field_excl (("Priority").data) (("Pre-Depends").data) line 2 (by decide) (by decide) (by decide) hf2
  cases line with
  | nil => cases hhead
  | cons c rest =>
    simp only [List.head?_cons, Option.some.injEq] at hhead
    subst hhead
    simp [dispatch, handle_default, line_is_blank_cons, isspace_c, hb, hf2, hx0, hx1, hx2]

theorem dispatch_enabled_priorityField (tty : Bool) (al : List (List Char × List Char))
    (pkg : Pkg) (st : PState) (line : List Char) (e : Nat)
    (hf : is_field (kwOf PField.priorityField) line = true)
    (hbit : maskHas e (pfmBit PField.priorityField) = true) :
    dispatch tty al pkg st line e = dispatch tty al pkg st line PFM_ALL := by
  have hb : maskHas e PFM_PRIORITY = true := hbit
  have hall : maskHas PFM_ALL PFM_PRIORITY = true := by decide
  have hf2 : is_field (("Priority").data) line = true := hf
  have hhead : line.head? = some 'P' :=
    (is_field_head (("Priority").data) line (by decide) hf2).trans rfl
  have hx0 : is_field (("Package").data) line = false :=
    is_field_excl (("Priority").data) (("Package").data) line 1 (by decide) (by decide) (by decide) hf2
  have hx1 : is_field (("Provides").data) line = false :=
    is_field_excl (("Priority").data) (("Provides").data) line 2 (by decide) (by decide) (by decide) hf2
  have hx2 : is_field (("Pre-Depends").data) line = false :=
    is_field_excl (("Priority").data) (("Pre-Depends").data) line 2 (by decide) (by decide) (by decide) hf2
  cases line with
  | nil => cases hhead
  | cons c rest =>
    simp only [List.head?_cons, Option.some.injEq] at hhead
    subst hhead
    simp [dispatch, hb, hall, hf2, hx0, hx1, hx2]

theorem dispatch_disabled_provides (tty : Bool) (al : List (List Char × List Char))
    (pkg : Pkg) (st : PState) (line : List Char) (e : Nat)
    (hf : is_field (kwOf PField.provides) line = true)
    (hbit : maskHas e (pfmBit PField.provides) = false) :
    dispatch tty al pkg st line e = handle_default pkg st line := by
  have hb : maskHas e PFM_PROVIDES = false := hbit
  have hf2 : is_field (("Provides").data) line = true := hf
  have hhead : line.head? = some 'P' :=
    (is_field_head (("Provides").data) line (by decide) hf2).trans rfl
  have hx0 : is_field (("Package").data) line = false :=
    is_field_excl (("Provides").data) (("Package").data) line 1 (by decide) (by decide) (by decide) hf2
  have hx1 : is_field (("Priority").data) line = false :=
    is_field_excl (("Provides").data) (("Priority").data) line 2 (by decide) (by decide) (by decide) hf2
  have hx2 : is_field (("Pre-Depends").data) line = false :=
    is_field_excl (("Provides").data) (("Pre-Depends").data) line 2 (by decide) (by decide) (by decide) hf2
  cases line with
  | nil => cases hhead
  | cons c rest =>
    simp only [List.head?_cons, Option.some.injEq] at hhead
    subst hhead
    simp [dispatch, handle_default, line_is_blank_cons, isspace_c, hb, hf2, hx0, hx1, hx2]

theorem dispatch_enabled_provides (tty : Bool) (al : List (List Char × List Char))
    (pkg : Pkg) (st : PState) (line : List Char) (e : Nat)
    (hf : is_field (kwOf PField.provides) line = true)
    (hbit : maskHas e (pfmBit PField.provides) = true) :
    dispatch tty al pkg st line e = dispatch tty al pkg st line PFM_ALL := by
  have hb : maskHas e PFM_PROVIDES = true := hbit
  have hall : maskHas PFM_ALL PFM_PROVIDES = true := by decide
  have hf2 : is_field (("Provides").data) line = true := hf
  have hhead : line.head? = some 'P' :=
    (is_field_head (("Provides").data) line (by decide) hf2).trans rfl
  have hx0 : is_field (("Package").data) line = false :=
    is_field_excl (("Provides").data) (("Package").data) line 1 (by decide) (by decide) (by decide) hf2
  have hx1 : is_field (("Priority").data) line = false :=
    is_field_excl (("Provides").data) (("Priority").data) line 2 (by decide) (by decide) (by decide) hf2
  have hx2 : is_field (("Pre-Depends").data) line = false :=
    is_field_excl (("Provides").data) (("Pre-Depends").data) line 2 (by decide) (by decide) (by decide) hf2
  cases line with
  | nil => cases hhead
  | cons c rest =>
    simp only [List.head?_cons, Option.some.injEq] at hhead
    subst hhead
    simp [dispatch, hb, hall, hf2, hx0, hx1, hx2]

theorem dispatch_disabled_recommends (tty : Bool) (al : List (List Char × List Char))
    (pkg : Pkg) (st : PState) (line : List Char) (e : Nat)
    (hf : is_field (kwOf PField.recommends) line = true)
    (hbit : maskHas e (pfmBit PField.recommends) = false) :
    dispatch tty al pkg st line e = handle_default pkg st line := by
  have hb : maskHas e PFM_RECOMMENDS = false := hbit
  have hf2 : is_field (("Recommends").data) line = true := hf
  have hhead : line.head? = some 'R' :=
    (is_field_head (("Recommends").data) line (by decide) hf2).trans rfl
  have hx0 : is_field (("Replaces").data) line = false :=
    is_field_excl (("Recommends").data) (("Replaces").data) line 2 (by decide) (by decide) (by decide) hf2
  cases line with
  | nil => cases hhead
  | cons c rest =>
    simp only [List.head?_cons, Option.some.injEq] at hhead
    subst hhead
    simp [dispatch, handle_default, line_is_blank_cons, isspace_c, hb, hf2, hx0]

theorem dispatch_enabled_recommends (tty : Bool) (al : List (List Char × List Char))
    (pkg : Pkg) (st : PState) (line : List Char) (e : Nat)
    (hf : is_field (kwOf PField.recommends) line = true)
    (hbit : maskHas e (pfmBit PField.recommends) = true) :
    dispatch tty al pkg st line e = dispatch tty al pkg st line PFM_ALL := by
  have hb : maskHas e PFM_RECOMMENDS = true := hbit
  have hall : maskHas PFM_ALL PFM_RECOMMENDS = true := by decide
  have hf2 : is_field (("Recommends").data) line = true := hf
  have hhead : line.head? = some 'R' :=
    (is_field_head (("Recommends").data) line (by decide) hf2).trans rfl
  have hx0 : is_field (("Replaces").data) line = false :=
    is_field_excl (("Recommends").data) (("Replaces").data) line 2 (by decide) (by decide) (by decide) hf2
  cases line with
  | nil => cases hhead
  | cons c rest =>
    simp only [List.head?_cons, Option.some.injEq] at hhead
    subst hhead
    simp [dispatch, hb, hall, hf2, hx0]

theorem dispatch_disabled_replaces (tty : Bool) (al : List (List Char × List Char))
    (pkg : Pkg) (st : PState) (line : List Char) (e : Nat)
    (hf : is_field (kwOf PField.replaces) line = true)
    (hbit : maskHas e (pfmBit PField.replaces) = false) :
    dispatch tty al pkg st line e = handle_default pkg st line := by
  have hb : maskHas e PFM_REPLACES = false := hbit
  have hf2 : is_field (("Replaces").data) line = true := hf
  have hhead : line.head? = some 'R' :=
    (is_field_head (("Replaces").data) line (by decide) hf2).trans rfl
  have hx0 : is_field (("Recommends").data) line = false :=
    is_field_excl (("Replaces").data) (("Recommends").data) line 2 (by decide) (by decide) (by decide) hf2
  cases line with
  | nil => cases hhead
  | cons c rest =>
    simp only [List.head?_cons, Option.some.injEq] at hhead
    subst hhead
    simp [dispatch, handle_default, line_is_blank_cons, isspace_c, hb, hf2, hx0]

theorem dispatch_enabled_replaces (tty : Bool) (al : List (List Char × List Char))
    (pkg : Pkg) (st : PState) (line : List Char) (e : Nat)
    (hf : is_field (kwOf PField.replaces) line = true)
    (hbit : maskHas e (pfmBit PField.replaces) = true) :
    dispatch tty al pkg st line e = dispatch tty al pkg st line PFM_ALL := by
  have hb : maskHas e PFM_REPLACES = true := hbit
  have hall : maskHas PFM_ALL PFM_REPLACES = true := by decide
  have hf2 : is_field (("Replaces").data) line = true := hf
  have hhead : line.head? = some 'R' :=
    (is_field_head (("Replaces").data) line (by decide) hf2).trans rfl
  have hx0 : is_field (("Recommends").data) line = false :=
    is_field_excl (("Replaces").data) (("Recommends").data) line 2 (by decide) (by decide) (by decide) hf2
  cases line with
  | nil => cases hhead
  | cons c rest =>
    simp only [List.head?_cons, Option.some.injEq] at hhead
    subst hhead
    simp [dispatch, hb, hall, hf2, hx0]

theorem dispatch_disabled_sectionField (tty : Bool) (al : List (List Char × List Char))
    (pkg : Pkg) (st : PState) (line : List Char) (e : Nat)
    (hf : is_field (kwOf PField.sectionField) line = true)
    (hbit : maskHas e (pfmBit PField.sectionField) = false) :
    dispatch tty al pkg st line e = handle_default pkg st line := by
  have hb : maskHas e PFM_SECTION = false := hbit
  have hf2 : is_field (("Section").data) line = true := hf
  have hhead : line.head? = some 'S' :=
    (is_field_head (("Section").data) line (by decide) hf2).trans rfl
  have hx0 : is_field (("SHA256sum").data) line = false :=
    is_field_excl (("Section").data) (("SHA256sum").data) line 1 (by decide) (by decide) (by decide) hf2
  have hx1 : is_field (("Size").data) line = false :=
    is_field_excl (("Section").data) (("Size").data) line 1 (by decide) (by decide) (by decide) hf2
  have hx2 : is_field (("Source").data) line = false :=
    is_field_excl (("Section").data) (("Source").data) line 1 (by decide) (by decide) (by decide) hf2
  have hx3 : is_field (("Status").data) line = false :=
    is_field_excl (("Section").data) (("Status").data) line 1 (by decide) (by decide) (by decide) hf2
  have hx4 : is_field (("Suggests").data) line = false :=
    is_field_excl (("Section").data) (("Suggests").data) line 1 (by decide) (by decide) (by decide) hf2
  cases line with
  | nil => cases hhead
  | cons c rest =>
    simp only [List.head?_cons, Option.some.injEq] at hhead
    subst hhead
    simp [dispatch, handle_default, line_is_blank_cons, isspace_c, hb, hf2, hx0, hx1, hx2, hx3, hx4]

theorem dispatch_enabled_sectionField (tty : Bool) (al : List (List Char × List Char))
    (pkg : Pkg) (st : PState) (line : List Char) (e : Nat)
    (hf : is_field (kwOf PField.sectionField) line = true)
    (hbit : maskHas e (pfmBit PField.sectionField) = true) :
    dispatch tty al pkg st line e = dispatch tty al pkg st line PFM_ALL := by
  have hb : maskHas e PFM_SECTION = true := hbit
  have hall : maskHas PFM_ALL PFM_SECTION = true := by decide
  have hf2 : is_field (("Section").data) line = true := hf
  have hhead : line.head? = some 'S' :=
    (is_field_head (("Section").data) line (by decide) hf2).trans rfl
  have hx0 : is_field (("SHA256sum").data) line = false :=
    is_field_excl (("Section").data) (("SHA256sum").data) line 1 (by decide) (by decide) (by decide) hf2
  have hx1 : is_field (("Size").data) line = false :=
    is_field_excl (("Section").data) (("Size").data) line 1 (by decide) (by decide) (by decide) hf2
  have hx2 : is_field (("Source").data) line = false :=
    is_field_excl (("Section").data) (("Source").data) line 1 (by decide) (by decide) (by decide) hf2
  have hx3 : is_field (("Status").data) line = false :=
    is_field_excl (("Section").data) (("Status").data) line 1 (by decide) (by decide) (by decide) hf2
  have hx4 : is_field (("Suggests").data) line = false :=
    is_field_excl (("Section").data) (("Suggests").data) line 1 (by decide) (by decide) (by decide) hf2
  cases line with
  | nil => cases hhead
  | cons c rest =>
    simp only [List.head?_cons, Option.some.injEq] at hhead
    subst hhead
    simp [dispatch, hb, hall, hf2, hx0, hx1, hx2, hx3, hx4]

theorem dispatch_disabled_sha256sum (tty : Bool) (al : List (List Char × List Char))
    (pkg : Pkg) (st : PState) (line : List Char) (e : Nat)
    (hf : is_field (kwOf PField.sha256sum) line = true)
    (hbit : maskHas e (pfmBit PField.sha256sum) = false) :
    dispatch tty al pkg st line e = handle_default pkg st line := by
  have hb : maskHas e PFM_SHA256SUM = false := hbit
  have hf2 : is_field (("SHA256sum").data) line = true := hf
  have hhead : line.head? = some 'S' :=
    (is_field_head (("SHA256sum").data) line (by decide) hf2).trans rfl
  have hx0 : is_field (("Section").data) line = false :=
    is_field_excl (("SHA256sum").data) (("Section").data) line 1 (by decide) (by decide) (by decide) hf2
  have hx1 : is_field (("Size").data) line = false :=
    is_field_excl (("SHA256sum").data) (("Size").data) line 1 (by decide) (by decide) (by decide) hf2
  have hx2 : is_field (("Source").data) line = false :=
    is_field_excl (("SHA256sum").data) (("Source").data) line 1 (by decide) (by decide) (by decide) hf2
  have hx3 : is_field (("Status").data) line = false :=
    is_field_excl (("SHA256sum").data) (("Status").data) line 1 (by decide) (by decide) (by decide) hf2
  have hx4 : is_field (("Suggests").data) line = false :=
    is_field_excl (("SHA256sum").data) (("Suggests").data) line 1 (by decide) (by decide) (by decide) hf2
  cases line with
  | nil => cases hhead
  | cons c rest =>
    simp only [List.head?_cons, Option.some.injEq] at hhead
    subst hhead
    simp [dispatch, handle_default, line_is_blank_cons, isspace_c, hb, hf2, hx0, hx1, hx2, hx3, hx4]

theorem dispatch_enabled_sha256sum (tty : Bool) (al : List (List Char × List Char))
    (pkg : Pkg) (st : PState) (line : List Char) (e : Nat)
    (hf : is_field (kwOf PField.sha256sum) line = true)
    (hbit : maskHas e (pfmBit PField.sha256sum) = true) :
    dispatch tty al pkg st line e = dispatch tty al pkg st line PFM_ALL := by
  have hb : maskHas e PFM_SHA256SUM = true := hbit
  have hall : maskHas PFM_ALL PFM_SHA256SUM = true := by decide
  have hf2 : is_field (("SHA256sum").data) line = true := hf
  have hhead : line.head? = some 'S' :=
    (is_field_head (("SHA256sum").data) line (by decide) hf2).trans rfl
  have hx0 : is_field (("Section").data) line = false :=
    is_field_excl (("SHA256sum").data) (("Section").data) line 1 (by decide) (by decide) (by decide) hf2
  have hx1 : is_field (("Size").data) line = false :=
    is_field_excl (("SHA256sum").data) (("Size").data) line 1 (by decide) (by decide) (by decide) hf2
  have hx2 : is_field (("Source").data) line = false :=
    is_field_excl (("SHA256sum").data) (("Source").data) line 1 (by decide) (by decide) (by decide) hf2
  have hx3 : is_field (("Status").data) line = false :=
    is_field_excl (("SHA256sum").data) (("Status").data) line 1 (by decide) (by decide) (by decide) hf2
  have hx4 : is_field (("Suggests").data) line = false :=
    is_field_excl (("SHA256sum").data) (("Suggests").data) line 1 (by decide) (by decide) (by decide) hf2
  cases line with
  | nil => cases hhead
  | cons c rest =>
    simp only [List.head?_cons, Option.some.injEq] at hhead
    subst hhead
    simp [dispatch, hb, hall, hf2, hx0, hx1, hx2, hx3, hx4]

theorem dispatch_disabled_sizeField (tty : Bool) (al : List (List Char × List Char))
    (pkg : Pkg) (st : PState) (line : List Char) (e : Nat)
    (hf : is_field (kwOf PField.sizeField) line = true)
    (hbit : maskHas e (pfmBit PField.sizeField) = false) :
    dispatch tty al pkg st line e = handle_default pkg st line := by
  have hb : maskHas e PFM_SIZE = false := hbit
  have hf2 : is_field (("Size").data) line = true := hf
  have hhead : line.head? = some 'S' :=
    (is_field_head (("Size").data) line (by decide) hf2).trans rfl
  have hx0 : is_field (("Section").data) line = false :=
    is_field_excl (("Size").data) (("Section").data) line 1 (by decide) (by decide) (by decide) hf2
  have hx1 : is_field (("SHA256sum").data) line = false :=
    is_field_excl (("Size").data) (("SHA256sum").data) line 1 (by decide) (by decide) (by decide) hf2
  have hx2 : is_field (("Source").data) line = false :=
    is_field_excl (("Size").data) (("Source").data) line 1 (by decide) (by decide) (by decide) hf2
  have hx3 : is_field (("Status").data) line = false :=
    is_field_excl (("Size").data) (("Status").data) line 1 (by decide) (by decide) (by decide) hf2
  have hx4 : is_field (("Suggests").data) line = false :=
    is_field_excl (("Size").data) (("Suggests").data) line 1 (by decide) (by decide) (by decide) hf2
  cases line with
  | nil => cases hhead
  | cons c rest =>
    simp only [List.head?_cons, Option.some.injEq] at hhead
    subst hhead
    simp [dispatch, handle_default, line_is_blank_cons, isspace_c, hb, hf2, hx0, hx1, hx2, hx3, hx4]

theorem dispatch_enabled_sizeField (tty : Bool) (al : List (List Char × List Char))
    (pkg : Pkg) (st : PState) (line : List Char) (e : Nat)
    (hf : is_field (kwOf PField.sizeField) line = true)
    (hbit : maskHas e (pfmBit PField.sizeField) = true) :
    dispatch tty al pkg st line e = dispatch tty al pkg st line PFM_ALL := by
  have hb : maskHas e PFM_SIZE = true := hbit
  have hall : maskHas PFM_ALL PFM_SIZE = true := by decide
  have hf2 : is_field (("Size").data) line = true := hf
  have hhead : line.head? = some 'S' :=
    (is_field_head (("Size").data) line (by decide) hf2).trans rfl
  have hx0 : is_field (("Section").data) line = false :=
    is_field_excl (("Size").data) (("Section").data) line 1 (by decide) (by decide) (by decide) hf2
  have hx1 : is_field (("SHA256sum").data) line = false :=
    is_field_excl (("Size").data) (("SHA256sum").data) line 1 (by decide) (by decide) (by decide) hf2
  have hx2 : is_field (("Source").data) line = false :=
    is_field_excl (("Size").data) (("Source").data) line 1 (by decide) (by decide) (by decide) hf2
  have hx3 : is_field (("Status").data) line = false :=
    is_field_excl (("Size").data) (("Status").data) line 1 (by decide) (by decide) (by decide) hf2
  have hx4 : is_field (("Suggests").data) line = false :=
    is_field_excl (("Size").data) (("Suggests").data) line 1 (by decide) (by decide) (by decide) hf2
  cases line with
  | nil => cases hhead
  | cons c rest =>
    simp only [List.head?_cons, Option.some.injEq] at hhead
    subst hhead
    simp [dispatch, hb, hall, hf2, hx0, hx1, hx2, hx3, hx4]

theorem dispatch_disabled_source (tty : Bool) (al : List (List Char × List Char))
    (pkg : Pkg) (st : PState) (line : List Char) (e : Nat)
    (hf : is_field (kwOf PField.source) line = true)
    (hbit : maskHas e (pfmBit PField.source) = false) :
    dispatch tty al pkg st line e = handle_default pkg st line := by
  have hb : maskHas e PFM_SOURCE = false := hbit
  have hf2 : is_field (("Source").data) line = true := hf
  have hhead : line.head? = some 'S' :=
    (is_field_head (("Source").data) line (by decide) hf2).trans rfl
  have hx0 : is_field (("Section").data) line = false :=
    is_field_excl (("Source").data) (("Section").data) line 1 (by decide) (by decide) (by decide) hf2
  have hx1 : is_field (("SHA256sum").data) line = false :=
    is_field_excl (("Source").data) (("SHA256sum").data) line 1 (by decide) (by decide) (by decide) hf2
  have hx2 : is_field (("Size").data) line = false :=
    is_field_excl (("Source").data) (("Size").data) line 1 (by decide) (by decide) (by decide) hf2
  have hx3 : is_field (("Status").data) line = false :=
    is_field_excl (("Source").data) (("Status").data) line 1 (by decide) (by decide) (by decide) hf2
  have hx4 : is_field (("Suggests").data) line = false :=
    is_field_excl (("Source").data) (("Suggests").data) line 1 (by decide) (by decide) (by decide) hf2
  cases line with
  | nil => cases hhead
  | cons c rest =>
    simp only [List.head?_cons, Option.some.injEq] at hhead
    subst hhead
    simp [dispatch, handle_default, line_is_blank_cons, isspace_c, hb, hf2, hx0, hx1, hx2, hx3, hx4]

theorem dispatch_enabled_source (tty : Bool) (al : List (List Char × List Char))
    (pkg : Pkg) (st : PState) (line : List Char) (e : Nat)
    (hf : is_field (kwOf PField.source) line = true)
    (hbit : maskHas e (pfmBit PField.source) = true) :
    dispatch tty al pkg st line e = dispatch tty al pkg st line PFM_ALL := by
  have hb : maskHas e PFM_SOURCE = true := hbit
  have hall : maskHas PFM_ALL PFM_SOURCE = true := by decide
  have hf2 : is_field (("Source").data) line = true := hf
  have hhead : line.head? = some 'S' :=
    (is_field_head (("Source").data) line (by decide) hf2).trans rfl
  have hx0 : is_field (("Section").data) line = false :=
    is_field_excl (("Source").data) (("Section").data) line 1 (by decide) (by decide) (by decide) hf2
  have hx1 : is_field (("SHA256sum").data) line = false :=
    is_field_excl (("Source").data) (("SHA256sum").data) line 1 (by decide) (by decide) (by decide) hf2
  have hx2 : is_field (("Size").data) line = false :=
    is_field_excl (("Source").data) (("Size").data) line 1 (by decide) (by decide) (by decide) hf2
  have hx3 : is_field (("Status").data) line = false :=
    is_field_excl (("Source").data) (("Status").data) line 1 (by decide) (by decide) (by decide) hf2
  have hx4 : is_field (("Suggests").data) line = false :=
    is_field_excl (("Source").data) (("Suggests").data) line 1 (by decide) (by decide) (by decide) hf2
  cases line with
  | nil => cases hhead
  | cons c rest =>
    simp only [List.head?_cons, Option.some.injEq] at hhead
    subst hhead
    simp [dispatch, hb, hall, hf2, hx0, hx1, hx2, hx3, hx4]

theorem dispatch_disabled_status (tty : Bool) (al : List (List Char × List Char))
    (pkg : Pkg) (st : PState) (line : List Char) (e : Nat)
    (hf : is_field (kwOf PField.status) line = true)
    (hbit : maskHas e (pfmBit PField.status) = false) :
    dispatch tty al pkg st line e = handle_default pkg st line := by
  have hb : maskHas e PFM_STATUS = false := hbit
  have hf2 : is_field (("Status").data) line = true := hf
  have hhead : line.head? = some 'S' :=
    (is_field_head (("Status").data) line (by decide) hf2).trans rfl
  have hx0 : is_field (("Section").data) line = false :=
    is_field_excl (("Status").data) (("Section").data) line 1 (by decide) (by decide) (by decide) hf2
  have hx1 : is_field (("SHA256sum").data) line = false :=
    is_field_excl (("Status").data) (("SHA256sum").data) line 1 (by decide) (by decide) (by decide) hf2
  have hx2 : is_field (("Size").data) line = false :=
    is_field_excl (("Status").data) (("Size").data) line 1 (by decide) (by decide) (by decide) hf2
  have hx3 : is_field (("Source").data) line = false :=
    is_field_excl (("Status").data) (("Source").data) line 1 (by decide) (by decide) (by decide) hf2
  have hx4 : is_field (("Suggests").data) line = false :=
    is_field_excl (("Status").data) (("Suggests").data) line 1 (by decide) (by decide) (by decide) hf2
  cases line with
  | nil => cases hhead
  | cons c rest =>
    simp only [List.head?_cons, Option.some.injEq] at hhead
    subst hhead
    simp [dispatch, handle_default, line_is_blank_cons, isspace_c, hb, hf2, hx0, hx1, hx2, hx3, hx4]

theorem dispatch_enabled_status (tty : Bool) (al : List (List Char × List Char))
    (pkg : Pkg) (st : PState) (line : List Char) (e : Nat)
    (hf : is_field (kwOf PField.status) line = true)
    (hbit : maskHas e (pfmBit PField.status) = true) :
    dispatch tty al pkg st line e = dispatch tty al pkg st line PFM_ALL := by
  have hb : maskHas e PFM_STATUS = true := hbit
  have hall : maskHas PFM_ALL PFM_STATUS = true := by decide
  have hf2 : is_field (("Status").data) line = true := hf
  have hhead : line.head? = some 'S' :=
    (is_field_head (("Status").data) line (by decide) hf2).trans rfl
  have hx0 : is_field (("Section").data) line = false :=
    is_field_excl (("Status").data) (("Section").data) line 1 (by decide) (by decide) (by decide) hf2
  have hx1 : is_field (("SHA256sum").data) line = false :=
    is_field_excl (("Status").data) (("SHA256sum").data) line 1 (by decide) (by decide) (by decide) hf2
  have hx2 : is_field (("Size").data) line = false :=
    is_field_excl (("Status").data) (("Size").data) line 1 (by decide) (by decide) (by decide) hf2
  have hx3 : is_field (("Source").data) line = false :=
    is_field_excl (("Status").data) (("Source").data) line 1 (by decide) (by decide) (by decide) hf2
  have hx4 : is_field (("Suggests").data) line = false :=
    is_field_excl (("Status").data) (("Suggests").data) line 1 (by decide) (by decide) (by decide) hf2
  cases line with
  | nil => cases hhead
  | cons c rest =>
    simp only [List.head?_cons, Option.some.injEq] at hhead
    subst hhead
    simp [dispatch, hb, hall, hf2, hx0, hx1, hx2, hx3, hx4]

theorem dispatch_disabled_suggests (tty : Bool) (al : List (List Char × List Char))
    (pkg : Pkg) (st : PState) (line : List Char) (e : Nat)
    (hf : is_field (kwOf PField.suggests) line = true)
    (hbit : maskHas e (pfmBit PField.suggests) = false) :
    dispatch tty al pkg st line e = handle_default pkg st line := by
  have hb : maskHas e PFM_SUGGESTS = false := hbit
  have hf2 : is_field (("Suggests").data) line = true := hf
  have hhead : line.head? = some 'S' :=
    (is_field_head (("Suggests").data) line (by decide) hf2).trans rfl
  have hx0 : is_field (("Section").data) line = false :=
    is_field_excl (("Suggests").data) (("Section").data) line 1 (by decide) (by decide) (by decide) hf2
  have hx1 : is_field (("SHA256sum").data) line = false :=
    is_field_excl (("Suggests").data) (("SHA256sum").data) line 1 (by decide) (by decide) (by decide) hf2
  have hx2 : is_field (("Size").data) line = false :=
    is_field_excl (("Suggests").data) (("Size").data) line 1 (by decide) (by decide) (by decide) hf2
  have hx3 : is_field (("Source").data) line = false :=
    is_field_excl (("Suggests").data) (("Source").data) line 1 (by decide) (by decide) (by decide) hf2
  have hx4 : is_field (("Status").data) line = false :=
    is_field_excl (("Suggests").data) (("Status").data) line 1 (by decide) (by decide) (by decide) hf2
  cases line with
  | nil => cases hhead
  | cons c rest =>
    simp only [List.head?_cons, Option.some.injEq] at hhead
    subst hhead
    simp [dispatch, handle_default, line_is_blank_cons, isspace_c, hb, hf2, hx0, hx1, hx2, hx3, hx4]

theorem dispatch_enabled_suggests (tty : Bool) (al : List (List Char × List Char))
    (pkg : Pkg) (st : PState) (line : List Char) (e : Nat)
    (hf : is_field (kwOf PField.suggests) line = true)
    (hbit : maskHas e (pfmBit PField.suggests) = true) :
    dispatch tty al pkg st line e = dispatch tty al pkg st line PFM_ALL := by
  have hb : maskHas e PFM_SUGGESTS = true := hbit
  have hall : maskHas PFM_ALL PFM_SUGGESTS = true := by decide
  have hf2 : is_field (("Suggests").data) line = true := hf
  have hhead : line.head? = some 'S' :=
    (is_field_head (("Suggests").data) line (by decide) hf2).trans rfl
  have hx0 : is_field (("Section").data) line = false :=
    is_field_excl (("Suggests").data) (("Section").data) line 1 (by decide) (by decide) (by decide) hf2
  have hx1 : is_field (("SHA256sum").data) line = false :=
    is_field_excl (("Suggests").data) (("SHA256sum").data) line 1 (by decide) (by decide) (by decide) hf2
  have hx2 : is_field (("Size").data) line = false :=
    is_field_excl (("Suggests").data) (("Size").data) line 1 (by decide) (by decide) (by decide) hf2
  have hx3 : is_field (("Source").data) line = false :=
    is_field_excl (("Suggests").data) (("Source").data) line 1 (by decide) (by decide) (by decide) hf2
  have hx4 : is_field (("Status").data) line = false :=
    is_field_excl (("Suggests").data) (("Status").data) line 1 (by decide) (by decide) (by decide) hf2
  cases line with
  | nil => cases hhead
  | cons c rest =>
    simp only [List.head?_cons, Option.some.injEq] at hhead
    subst hhead
    simp [dispatch, hb, hall, hf2, hx0, hx1, hx2, hx3, hx4]

theorem dispatch_disabled_tags (tty : Bool) (al : List (List Char × List Char))
    (pkg : Pkg) (st : PState) (line : List Char) (e : Nat)
    (hf : is_field (kwOf PField.tags) line = true)
    (hbit : maskHas e (pfmBit PField.tags) = false) :
    dispatch tty al pkg st line e = handle_default pkg st line := by
  have hb : maskHas e PFM_TAGS = false := hbit
  have hf2 : is_field (("Tags").data) line = true := hf
  have hhead : line.head? = some 'T' :=
    (is_field_head (("Tags").data) line (by decide) hf2).trans rfl
  cases line with
  | nil => cases hhead
  | cons c rest =>
    simp only [List.head?_cons, Option.some.injEq] at hhead
    subst hhead
    simp [dispatch, handle_default, line_is_blank_cons, isspace_c, hb, hf2]

theorem dispatch_enabled_tags (tty : Bool) (al : List (List Char × List Char))
    (pkg : Pkg) (st : PState) (line : List Char) (e : Nat)
    (hf : is_field (kwOf PField.tags) line = true)
    (hbit : maskHas e (pfmBit PField.tags) = true) :
    dispatch tty al pkg st line e = dispatch tty al pkg st line PFM_ALL := by
  have hb : maskHas e PFM_TAGS = true := hbit
  have hall : maskHas PFM_ALL PFM_TAGS = true := by decide
  have hf2 : is_field (("Tags").data) line = true := hf
  have hhead : line.head? = some 'T' :=
    (is_field_head (("Tags").data) line (by decide) hf2).trans rfl
  cases line with
  | nil => cases hhead
  | cons c rest =>
    simp only [List.head?_cons, Option.some.injEq] at hhead
    subst hhead
    simp [dispatch, hb, hall, hf2]

theorem dispatch_disabled_version (tty : Bool) (al : List (List Char × List Char))
    (pkg : Pkg) (st : PState) (line : List Char) (e : Nat)
    (hf : is_field (kwOf PField.version) line = true)
    (hbit : maskHas e (pfmBit PField.version) = false) :
    dispatch tty al pkg st line e = handle_default pkg st line := by
  have hb : maskHas e PFM_VERSION = false := hbit
  have hf2 : is_field (("Version").data) line = true := hf
  have hhead : line.head? = some 'V' :=
    (is_field_head (("Version").data) line (by decide) hf2).trans rfl
  cases line with
  | nil => cases hhead
  | cons c rest =>
    simp only [List.head?_cons, Option.some.injEq] at hhead
    subst hhead
    simp [dispatch, handle_default, line_is_blank_cons, isspace_c, hb, hf2]

theorem dispatch_enabled_version (tty : Bool) (al : List (List Char × List Char))
    (pkg : Pkg) (st : PState) (line : List Char) (e : Nat)
    (hf : is_field (kwOf PField.version) line = true)
    (hbit : maskHas e (pfmBit PField.version) = true) :
    dispatch tty al pkg st line e = dispatch tty al pkg st line PFM_ALL := by
  have hb : maskHas e PFM_VERSION = true := hbit
  have hall : maskHas PFM_ALL PFM_VERSION = true := by decide
  have hf2 : is_field (("Version").data) line = true := hf
  have hhead : line.head? = some 'V' :=
    (is_field_head (("Version").data) line (by decide) hf2).trans rfl
  cases line with
  | nil => cases hhead
  | cons c rest =>
    simp only [List.head?_cons, Option.some.injEq] at hhead
    subst hhead
    simp [dispatch, hb, hall, hf2]

/-! ### Effective-mask bit semantics -/

theorem maskHas_two_pow (x k : Nat) : maskHas x (1 <<< k) = x.testBit k := by
  have h1 : (1 : Nat) <<< k = 2 ^ k := by rw [Nat.shiftLeft_eq, Nat.one_mul]
  cases h : x.testBit k with
  | false => simp [maskHas, h1, Nat.and_two_pow, h]
  | true =>
    have hp : (2 : Nat) ^ k ≠ 0 := Nat.pos_iff_ne_zero.mp (Nat.pos_pow_of_pos k (by decide))
    simp [maskHas, h1, Nat.and_two_pow, h, hp]

theorem maskHas_effMask (mask pfm k : Nat) (hk : k < 32) :
    maskHas (((mask % UINT_MOD) ||| (pfm % UINT_MOD)) ^^^ PFM_ALL) (1 <<< k) =
      (!(maskHas mask (1 <<< k)) && !(maskHas pfm (1 <<< k))) := by
  rw [maskHas_two_pow, maskHas_two_pow, maskHas_two_pow]
  have hall : PFM_ALL = 2 ^ 32 - 1 := rfl
  have hmod : UINT_MOD = 2 ^ 32 := rfl
  rw [Nat.testBit_xor, Nat.testBit_lor, hall, hmod, Nat.testBit_mod_two_pow,
    Nat.testBit_mod_two_pow, Nat.testBit_two_pow_sub_one]
  simp [hk]

/-! ### `parse_version` characterization -/

theorem setVersionRevision_epoch (pkg : Pkg) (v : List Char) :
    (setVersionRevision pkg v).epoch = pkg.epoch := by
  simp only [setVersionRevision]
  split <;> simp

theorem setVersionRevision_spec (pkg : Pkg) (v : List Char) :
    VersionRevSpec (setVersionRevision pkg v) v := by
  constructor
  · intro p r hd hnr
    have hs : strrchr_split '-' (set_string_val v) = some (p, r) := by
      rw [hd]
      exact strrchr_split_of_decomp '-' p r hnr
    simp only [setVersionRevision, hs]
    simp
  · intro hnv
    have hs : strrchr_split '-' (set_string_val v) = none :=
      (strrchr_split_none _ _).mpr hnv
    simp only [setVersionRevision, hs]
    simp

theorem parse_version_eq_some (pkg : Pkg) (s pre post : List Char)
    (h : strchr_split ':'
        ((if starts_with ("Version:".data) s = true then s.drop 8 else s).dropWhile isspace_c) =
      some (pre, post)) :
    parse_version pkg s =
      (setVersionRevision
        { pkg with epoch := some (strtoul10
            ((if starts_with ("Version:".data) s = true then s.drop 8 else s).dropWhile isspace_c)).val }
        post,
       if (strtoul10
            ((if starts_with ("Version:".data) s = true then s.drop 8 else s).dropWhile isspace_c)).erange
       then [Diag.epochErr] else []) := by
  simp only [parse_version, h]

theorem parse_version_eq_none (pkg : Pkg) (s : List Char)
    (h : strchr_split ':'
        ((if starts_with ("Version:".data) s = true then s.drop 8 else s).dropWhile isspace_c) = none) :
    parse_version pkg s =
      (setVersionRevision pkg
        ((if starts_with ("Version:".data) s = true then s.drop 8 else s).dropWhile isspace_c), []) := by
  simp only [parse_version, h]

theorem strtoul10_colon (pre post : List Char) :
    strtoul10 (pre ++ ':' :: post) = strtoul10 pre :=
  strtoul10_append_stop pre post ':' (by decide) (by decide) (by decide) (by decide)

/-! ### Claim C1 -/

/-- C1: Version Decomposer correctness.  After stripping an optional
`Version:` label and leading whitespace, if the remaining text contains
a colon then the text before the (first) colon is parsed as the
unsigned decimal epoch and the text after it becomes the working
version string; otherwise the epoch is left absent.  Within the stored
working string, the substring after the last hyphen becomes the
revision and the version is truncated at that hyphen; with no hyphen
the revision is absent.  In particular `2:1.4.5-3` yields epoch 2,
version `1.4.5`, revision `3`; `1.0` yields no epoch and no revision;
`0:1.0-` yields version `1.0` and an empty (present) revision. -/
theorem C1_version_decomposer :
    (∀ (pkg : Pkg) (s pre post : List Char), pkg.epoch = none →
        (if starts_with (("Version:").data) s = true then s.drop 8 else s).dropWhile isspace_c
          = pre ++ ':' :: post →
        ':' ∉ pre →
        (parse_version pkg s).1.epoch = some (strtoul10 pre).val ∧
          VersionRevSpec (parse_version pkg s).1 post)
    ∧ (∀ (pkg : Pkg) (s : List Char), pkg.epoch = none →
        ':' ∉ (if starts_with (("Version:").data) s = true then s.drop 8 else s).dropWhile isspace_c →
        (parse_version pkg s).1.epoch = none ∧
          VersionRevSpec (parse_version pkg s).1
            ((if starts_with (("Version:").data) s = true then s.drop 8 else s).dropWhile isspace_c))
    ∧ (parse_version ({} : Pkg) (("2:1.4.5-3").data)).1.epoch = some 2
    ∧ (parse_version ({} : Pkg) (("2:1.4.5-3").data)).1.version = some (("1.4.5").data)
    ∧ (parse_version ({} : Pkg) (("2:1.4.5-3").data)).1.revision = some (("3").data)
    ∧ (parse_version ({} : Pkg) (("1.0").data)).1.epoch = none
    ∧ (parse_version ({} : Pkg) (("1.0").data)).1.version = some (("1.0").data)
    ∧ (parse_version ({} : Pkg) (("1.0").data)).1.revision = none
    ∧ (parse_version ({} : Pkg) (("0:1.0-").data)).1.version = some (("1.0").data)
    ∧ (parse_version ({} : Pkg) (("0:1.0-").data)).1.revision = some [] := by
  refine ⟨?_, ?_, by decide, by decide, by decide, by decide, by decide, by decide,
    by decide, by decide⟩
  · intro pkg s pre post hEp hw hpre
    have hsplit : strchr_split ':'
        ((if starts_with (("Version:").data) s = true then s.drop 8 else s).dropWhile isspace_c)
        = some (pre, post) := by
      rw [hw]
      exact strchr_split_of_decomp ':' pre post hpre
    constructor
    · simp only [parse_version_eq_some pkg s pre post hsplit, setVersionRevision_epoch]
      rw [hw, strtoul10_colon]
    · simp only [parse_version_eq_some pkg s pre post hsplit]
      exact setVersionRevision_spec _ _
  · intro pkg s hEp hnc
    have hsplit : strchr_split ':'
        ((if starts_with (("Version:").data) s = true then s.drop 8 else s).dropWhile isspace_c)
        = none := (strchr_split_none ':' _).mpr hnc
    constructor
    · simp only [parse_version_eq_none pkg s hsplit, setVersionRevision_epoch]
      exact hEp
    · simp only [parse_version_eq_none pkg s hsplit]
      exact setVersionRevision_spec _ _

/-- Witness for C1: the general clause applied at the concrete input
`2:1.4.5-3` with an empty record, all hypotheses discharged there. -/
theorem C1_version_decomposer_witness :
    (({} : Pkg).epoch = none) ∧
      (parse_version ({} : Pkg) (("2:1.4.5-3").data)).1.epoch =
        some (strtoul10 (("2").data)).val :=
  ⟨rfl,
   (C1_version_decomposer.1 {} (("2:1.4.5-3").data) (("2").data) (("1.4.5-3").data)
     rfl rfl (by decide)).1⟩

/-! ### Return-value characterization -/

theorem head_some_space (line : List Char)
    (hg : line.head?.getD (Char.ofNat 0) = ' ') : line.head? = some ' ' := by
  cases hl : line.head? with
  | none => rw [hl] at hg; simp at hg
  | some c => rw [hl] at hg; simp at hg; rw [hg]

theorem dispatch_ret (tty : Bool) (al : List (List Char × List Char))
    (pkg : Pkg) (st : PState) (line : List Char) (e : Nat) :
    (dispatch tty al pkg st line e).ret =
      (line_is_blank line && !(cont_description e st line || cont_conffiles e st line)) := by
  by_cases hoc : opens_conffiles e line = true
  · obtain ⟨hm, hif⟩ : maskHas e PFM_CONFFILES = true ∧ is_field (("Conffiles").data) line = true := by
      simpa [opens_conffiles] using hoc
    rw [dispatch_open_conffiles tty al pkg st line e hm hif]
    have hhead : line.head? = some 'C' := (is_field_head _ line (by decide) hif).trans rfl
    cases line with
    | nil => cases hhead
    | cons c rest =>
      simp only [List.head?_cons, Option.some.injEq] at hhead
      subst hhead
      simp [line_is_blank_cons, isspace_c]
  by_cases hod : opens_description e line = true
  · obtain ⟨hm, hif⟩ : maskHas e PFM_DESCRIPTION = true ∧ is_field (("Description").data) line = true := by
      simpa [opens_description] using hod
    rw [dispatch_open_description tty al pkg st line e hm hif]
    have hhead : line.head? = some 'D' := (is_field_head _ line (by decide) hif).trans rfl
    cases line with
    | nil => cases hhead
    | cons c rest =>
      simp only [List.head?_cons, Option.some.injEq] at hhead
      subst hhead
      simp [line_is_blank_cons, isspace_c]
  by_cases hcd : cont_description e st line = true
  · obtain ⟨⟨hg, hm⟩, hrd⟩ : ((line.head?.getD (Char.ofNat 0) = ' ')
        ∧ maskHas e PFM_DESCRIPTION = true) ∧ st.reading_description = true := by
      simpa [cont_description] using hcd
    rw [dispatch_cont_description tty al pkg st line e (head_some_space line hg) hm hrd]
    simp [hcd]
  by_cases hcc : cont_conffiles e st line = true
  · obtain ⟨⟨⟨hg, hnd⟩, hm⟩, hrc⟩ : (((line.head?.getD (Char.ofNat 0) = ' ')
        ∧ (!(maskHas e PFM_DESCRIPTION && st.reading_description)) = true)
        ∧ maskHas e PFM_CONFFILES = true) ∧ st.reading_conffiles = true := by
      simpa [cont_conffiles] using hcc
    have hd2 : (maskHas e PFM_DESCRIPTION && st.reading_description) = false := by
      cases hx : (maskHas e PFM_DESCRIPTION && st.reading_description)
      · rfl
      · rw [hx] at hnd; cases hnd
    rw [dispatch_cont_conffiles tty al pkg st line e (head_some_space line hg) hd2 hm hrc]
    simp [hcc]
  · rw [dispatch_else tty al pkg st line e (by simpa using hoc) (by simpa using hod)
      (by simpa using hcd) (by simpa using hcc)]
    simp only [finish_flags]
    simp [by simpa using hcd, by simpa using hcc]

/-! ### Claim C2 -/

/-- C2 counterexample: the Version value `abc:1.0` has an epoch text
that is not a number, yet the code emits no diagnostic and commits
epoch 0 (the `strtoul` result) instead of leaving the epoch unset; and
the four-token line `Status: a b c d` (token count different from
three) is accepted with the first three tokens and no diagnostic. -/
theorem C2_error_policy_cex :
    (parse_version ({} : Pkg) (("abc:1.0").data)).1.epoch = some 0
    ∧ (parse_version ({} : Pkg) (("abc:1.0").data)).2 = []
    ∧ (parse_status ({} : Pkg) (("Status: a b c d").data)).1.state_want = some (("a").data)
    ∧ (parse_status ({} : Pkg) (("Status: a b c d").data)).1.state_status = some (("c").data)
    ∧ (parse_status ({} : Pkg) (("Status: a b c d").data)).2 = [] := by
  decide

/-- C2 (amended): a Status line on which the three-conversion `sscanf`
fails logs an error and leaves the three status sub-fields (indeed the
whole record) unchanged; a Conffiles continuation line on which the
two-conversion `sscanf` fails logs an error and leaves the conffile
list (indeed the whole record) unchanged; for a Version value with a
colon, the epoch is always committed as the `strtoul` result of the
text before the colon and a diagnostic fires exactly when that
conversion overflows; and no non-blank line halts stanza processing
(the per-line return value stays 0). -/
theorem C2_error_policy_amended :
    (∀ (pkg : Pkg) (s : List Char), sscanf_status s = none →
        parse_status pkg s = (pkg, [Diag.statusErr]))
    ∧ (∀ (pkg : Pkg) (s : List Char), sscanf_two s = none →
        parse_conffiles pkg s = (pkg, [Diag.conffilesErr]))
    ∧ (∀ (pkg : Pkg) (s pre post : List Char),
        (if starts_with (("Version:").data) s = true then s.drop 8 else s).dropWhile isspace_c
          = pre ++ ':' :: post →
        ':' ∉ pre →
        (parse_version pkg s).1.epoch = some (strtoul10 pre).val ∧
          (parse_version pkg s).2 = (if (strtoul10 pre).erange then [Diag.epochErr] else []))
    ∧ (∀ (tty : Bool) (al : List (List Char × List Char)) (pfm : Nat) (pkg : Pkg)
        (st : PState) (line : List Char) (mask : Nat), line_is_blank line = false →
        (pkg_parse_line tty al pfm pkg st line mask).ret = false) := by
  refine ⟨?_, ?_, ?_, ?_⟩
  · intro pkg s h
    simp only [parse_status, h]
  · intro pkg s h
    simp only [parse_conffiles, h]
  · intro pkg s pre post hw hpre
    have hsplit : strchr_split ':'
        ((if starts_with (("Version:").data) s = true then s.drop 8 else s).dropWhile isspace_c)
        = some (pre, post) := by
      rw [hw]
      exact strchr_split_of_decomp ':' pre post hpre
    constructor
    · simp only [parse_version_eq_some pkg s pre post hsplit, setVersionRevision_epoch]
      rw [hw, strtoul10_colon]
    · simp only [parse_version_eq_some pkg s pre post hsplit]
      rw [hw, strtoul10_colon]
  · intro tty al pfm pkg st line mask h
    unfold pkg_parse_line
    rw [dispatch_ret]
    simp [h]

/-- Witness for C2 (amended): the malformed line `Status: bogus`
yields one conversion, so the status parser reports an error and
leaves the record unchanged. -/
theorem C2_error_policy_witness :
    sscanf_status (("Status: bogus").data) = none ∧
      parse_status ({} : Pkg) (("Status: bogus").data) = ({}, [Diag.statusErr]) :=
  ⟨by decide, C2_error_policy_amended.1 {} (("Status: bogus").data) (by decide)⟩

/-! ### Projection helpers -/

theorem finish_flags_name (p : Pkg) (st : PState) (r : Bool) (d : List Diag) :
    (finish_flags p st r d).pkg.name = p.name := by
  simp only [finish_flags]
  split <;> rfl

theorem finish_flags_conffiles (p : Pkg) (st : PState) (r : Bool) (d : List Diag) :
    (finish_flags p st r d).pkg.conffiles = p.conffiles := by
  simp only [finish_flags]
  split <;> rfl

theorem finish_flags_st (p : Pkg) (st : PState) (r : Bool) (d : List Diag) :
    (finish_flags p st r d).st = ⟨false, false, none⟩ := rfl

theorem parse_conffiles_keeps (pkg : Pkg) (s : List Char) :
    (parse_conffiles pkg s).1.name = pkg.name ∧
      (parse_conffiles pkg s).1.description = pkg.description := by
  unfold parse_conffiles
  rcases sscanf_two s with _ | t <;> simp

theorem is_field_false_head (kw line : List Char) (k c : Char)
    (hk : kw.head? = some k) (hc : line.head? = some c) (hne : c ≠ k) :
    is_field kw line = false := by
  cases hb : is_field kw line with
  | false => rfl
  | true =>
    have hne2 : kw ≠ [] := by
      intro h
      rw [h] at hk
      cases hk
    have h := is_field_head kw line hne2 hb
    rw [hc, hk] at h
    injection h with h
    exact absurd h hne

theorem fieldUpd_package (al : List (List Char × List Char)) (pkg : Pkg)
    (line : List Char) (e : Nat)
    (hm : maskHas e PFM_PACKAGE = true)
    (hf : is_field (("Package").data) line = true) :
    (fieldUpd al pkg line e).1.name = some (parse_simple (("Package").data) line) := by
  have hhead : line.head? = some 'P' := (is_field_head _ line (by decide) hf).trans rfl
  cases line with
  | nil => cases hhead
  | cons ch rest =>
    simp only [List.head?_cons, Option.some.injEq] at hhead
    subst hhead
    simp [fieldUpd, hm, hf]

/-- Full characterization of the record name after one dispatch: an
enabled Package line overwrites it with the parsed value, every other
line leaves it unchanged. -/
theorem dispatch_name (tty : Bool) (al : List (List Char × List Char))
    (pkg : Pkg) (st : PState) (line : List Char) (e : Nat) :
    (dispatch tty al pkg st line e).pkg.name =
      (if (maskHas e PFM_PACKAGE && is_field (("Package").data) line) = true
       then some (parse_simple (("Package").data) line) else pkg.name) := by
  by_cases hp : (maskHas e PFM_PACKAGE && is_field (("Package").data) line) = true
  · rw [if_pos hp]
    obtain ⟨hm, hf⟩ : maskHas e PFM_PACKAGE = true ∧ is_field (("Package").data) line = true := by
      simpa using hp
    have hhead : line.head? = some 'P' := (is_field_head _ line (by decide) hf).trans rfl
    have hg : line.head?.getD (Char.ofNat 0) = 'P' := by rw [hhead]; rfl
    have ho1 : opens_conffiles e line = false := by
      simp [opens_conffiles,
        is_field_false_head (("Conffiles").data) line 'C' 'P' rfl hhead (by decide)]
    have ho2 : opens_description e line = false := by
      simp [opens_description,
        is_field_false_head (("Description").data) line 'D' 'P' rfl hhead (by decide)]
    have hc1 : cont_description e st line = false := by simp [cont_description, hg]
    have hc2 : cont_conffiles e st line = false := by simp [cont_conffiles, hg]
    rw [dispatch_else tty al pkg st line e ho1 ho2 hc1 hc2, finish_flags_name]
    exact fieldUpd_package al pkg line e hm hf
  · rw [if_neg hp]
    by_cases hoc : opens_conffiles e line = true
    · obtain ⟨hm, hif⟩ : maskHas e PFM_CONFFILES = true
          ∧ is_field (("Conffiles").data) line = true := by
        simpa [opens_conffiles] using hoc
      rw [dispatch_open_conffiles tty al pkg st line e hm hif]
    · by_cases hod : opens_description e line = true
      · obtain ⟨hm, hif⟩ : maskHas e PFM_DESCRIPTION = true
            ∧ is_field (("Description").data) line = true := by
          simpa [opens_description] using hod
        rw [dispatch_open_description tty al pkg st line e hm hif]
      · by_cases hcd : cont_description e st line = true
        · obtain ⟨⟨hg, hm⟩, hrd⟩ : ((line.head?.getD (Char.ofNat 0) = ' ')
              ∧ maskHas e PFM_DESCRIPTION = true) ∧ st.reading_description = true := by
            simpa [cont_description] using hcd
          rw [dispatch_cont_description tty al pkg st line e (head_some_space line hg) hm hrd]
        · by_cases hcc : cont_conffiles e st line = true
          · obtain ⟨⟨⟨hg, hnd⟩, hm⟩, hrc⟩ : (((line.head?.getD (Char.ofNat 0) = ' ')
                ∧ (!(maskHas e PFM_DESCRIPTION && st.reading_description)) = true)
                ∧ maskHas e PFM_CONFFILES = true) ∧ st.reading_conffiles = true := by
              simpa [cont_conffiles] using hcc
            have hd2 : (maskHas e PFM_DESCRIPTION && st.reading_description) = false := by
              cases hx : (maskHas e PFM_DESCRIPTION && st.reading_description)
              · rfl
              · rw [hx] at hnd; cases hnd
            rw [dispatch_cont_conffiles tty al pkg st line e (head_some_space line hg) hd2 hm hrc]
            exact (parse_conffiles_keeps pkg line).1
          · rw [dispatch_else tty al pkg st line e (by simpa using hoc) (by simpa using hod)
              (by simpa using hcd) (by simpa using hcc), finish_flags_name]
            exact fieldUpd_name al pkg line e (by simpa using hp)

/-- Full characterization of the continuation state after one
dispatch. -/
theorem dispatch_st (tty : Bool) (al : List (List Char × List Char))
    (pkg : Pkg) (st : PState) (line : List Char) (e : Nat) :
    (dispatch tty al pkg st line e).st =
      (if opens_conffiles e line = true then ⟨true, false, st.description⟩
       else if opens_description e line = true then
         ⟨false, true, some (parse_simple (("Description").data) line)⟩
       else if cont_description e st line = true then
         ⟨st.reading_conffiles, st.reading_description,
          some ((st.description.getD []) ++ (if tty then '\n' :: line else line))⟩
       else if cont_conffiles e st line = true then st
       else ⟨false, false, none⟩) := by
  by_cases hoc : opens_conffiles e line = true
  · obtain ⟨hm, hif⟩ : maskHas e PFM_CONFFILES = true
        ∧ is_field (("Conffiles").data) line = true := by
      simpa [opens_conffiles] using hoc
    rw [dispatch_open_conffiles tty al pkg st line e hm hif, if_pos hoc]
  · rw [if_neg hoc]
    by_cases hod : opens_description e line = true
    · obtain ⟨hm, hif⟩ : maskHas e PFM_DESCRIPTION = true
          ∧ is_field (("Description").data) line = true := by
        simpa [opens_description] using hod
      rw [dispatch_open_description tty al pkg st line e hm hif, if_pos hod]
    · rw [if_neg hod]
      by_cases hcd : cont_description e st line = true
      · obtain ⟨⟨hg, hm⟩, hrd⟩ : ((line.head?.getD (Char.ofNat 0) = ' ')
            ∧ maskHas e PFM_DESCRIPTION = true) ∧ st.reading_description = true := by
          simpa [cont_description] using hcd
        rw [dispatch_cont_description tty al pkg st line e (head_some_space line hg) hm hrd,
          if_pos hcd]
      · rw [if_neg hcd]
        by_cases hcc : cont_conffiles e st line = true
        · obtain ⟨⟨⟨hg, hnd⟩, hm⟩, hrc⟩ : (((line.head?.getD (Char.ofNat 0) = ' ')
              ∧ (!(maskHas e PFM_DESCRIPTION && st.reading_description)) = true)
              ∧ maskHas e PFM_CONFFILES = true) ∧ st.reading_conffiles = true := by
            simpa [cont_conffiles] using hcc
          have hd2 : (maskHas e PFM_DESCRIPTION && st.reading_description) = false := by
            cases hx : (maskHas e PFM_DESCRIPTION && st.reading_description)
            · rfl
            · rw [hx] at hnd; cases hnd
          rw [dispatch_cont_conffiles tty al pkg st line e (head_some_space line hg) hd2 hm hrc,
            if_pos hcc]
        · rw [if_neg hcc,
            dispatch_else tty al pkg st line e (by simpa using hoc) (by simpa using hod)
              (by simpa using hcd) (by simpa using hcc), finish_flags_st]

/-! ### Claim C3 -/

/-- C3 counterexample: feeding `Package: foo` and then `Package: bar`
into the same record leaves the name equal to the value of the LAST
line, not the first — `pkg->name = parse_simple(...)` overwrites
unconditionally. -/
theorem C3_package_first_wins_cex :
    ((pkg_parse_line false [] 0
        (pkg_parse_line false [] 0 ({} : Pkg) ({} : PState) (("Package: foo").data) 0).pkg
        (pkg_parse_line false [] 0 ({} : Pkg) ({} : PState) (("Package: foo").data) 0).st
        (("Package: bar").data) 0).pkg.name = some (("bar").data))
    ∧ ((pkg_parse_line false [] 0
        (pkg_parse_line false [] 0 ({} : Pkg) ({} : PState) (("Package: foo").data) 0).pkg
        (pkg_parse_line false [] 0 ({} : Pkg) ({} : PState) (("Package: foo").data) 0).st
        (("Package: bar").data) 0).pkg.name ≠ some (("foo").data)) := by
  decide

/-- C3 (amended): with repeated enabled `Package:` lines the record's
name ends up equal to the value of the LAST such line: every enabled
Package line overwrites the stored name with its own parsed value, and
no other line modifies the name. -/
theorem C3_package_last_wins (tty : Bool) (al : List (List Char × List Char))
    (pfm : Nat) (pkg : Pkg) (st : PState) (line : List Char) (mask : Nat) :
    ((maskHas (((mask % UINT_MOD) ||| (pfm % UINT_MOD)) ^^^ PFM_ALL) PFM_PACKAGE
        && is_field (("Package").data) line) = true →
      (pkg_parse_line tty al pfm pkg st line mask).pkg.name =
        some (parse_simple (("Package").data) line))
    ∧ ((maskHas (((mask % UINT_MOD) ||| (pfm % UINT_MOD)) ^^^ PFM_ALL) PFM_PACKAGE
        && is_field (("Package").data) line) = false →
      (pkg_parse_line tty al pfm pkg st line mask).pkg.name = pkg.name) := by
  constructor
  · intro h
    unfold pkg_parse_line
    rw [dispatch_name, if_pos h]
  · intro h
    unfold pkg_parse_line
    rw [dispatch_name, if_neg (by simp [h])]

/-- Witness for C3 (amended): an enabled `Package: foo` line sets the
name to the parsed value. -/
theorem C3_package_last_wins_witness :
    (pkg_parse_line false [] 0 ({} : Pkg) ({} : PState) (("Package: foo").data) 0).pkg.name =
      some (parse_simple (("Package").data) (("Package: foo").data)) :=
  (C3_package_last_wins false [] 0 {} {} (("Package: foo").data) 0).1 (by decide)

/-! ### Claim C4 -/

/-- C4: Field-visibility mask semantics.  (1) The per-line entry point
computes the effective enabled-field set as
`(callerMask OR globalMask) XOR PFM_ALL` and dispatches on it; (2) on
that effective set a field bit is enabled exactly when neither the
caller mask nor the global exclusion mask contains it; (3) a line of a
field whose bit is not enabled is processed identically to an
unrecognized line (the default handler: no record field changes); (4) a
line of a field whose bit is enabled parses exactly as it would with
all fields enabled; and (5) the mask has no persistent effect across
calls: a later call depends on an earlier call's mask only through the
record and continuation state that call returned. -/
theorem C4_visibility_mask :
    (∀ (tty : Bool) (al : List (List Char × List Char)) (pfm : Nat) (pkg : Pkg)
        (st : PState) (line : List Char) (mask : Nat),
      pkg_parse_line tty al pfm pkg st line mask =
        dispatch tty al pkg st line (((mask % UINT_MOD) ||| (pfm % UINT_MOD)) ^^^ PFM_ALL))
    ∧ (∀ (mask pfm : Nat) (f : PField),
        maskHas (((mask % UINT_MOD) ||| (pfm % UINT_MOD)) ^^^ PFM_ALL) (pfmBit f) =
          (!(maskHas mask (pfmBit f)) && !(maskHas pfm (pfmBit f))))
    ∧ (∀ (f : PField) (tty : Bool) (al : List (List Char × List Char)) (pkg : Pkg)
        (st : PState) (line : List Char) (e : Nat),
        is_field (kwOf f) line = true → maskHas e (pfmBit f) = false →
        dispatch tty al pkg st line e = handle_default pkg st line)
    ∧ (∀ (f : PField) (tty : Bool) (al : List (List Char × List Char)) (pkg : Pkg)
        (st : PState) (line : List Char) (e : Nat),
        is_field (kwOf f) line = true → maskHas e (pfmBit f) = true →
        dispatch tty al pkg st line e = dispatch tty al pkg st line PFM_ALL)
    ∧ (∀ (tty : Bool) (al : List (List Char × List Char)) (pfm : Nat) (pkg : Pkg)
        (st : PState) (l1 l2 : List Char) (mA mB m : Nat),
        (pkg_parse_line tty al pfm pkg st l1 mA).pkg = (pkg_parse_line tty al pfm pkg st l1 mB).pkg →
        (pkg_parse_line tty al pfm pkg st l1 mA).st = (pkg_parse_line tty al pfm pkg st l1 mB).st →
        pkg_parse_line tty al pfm (pkg_parse_line tty al pfm pkg st l1 mA).pkg
            (pkg_parse_line tty al pfm pkg st l1 mA).st l2 m =
          pkg_parse_line tty al pfm (pkg_parse_line tty al pfm pkg st l1 mB).pkg
            (pkg_parse_line tty al pfm pkg st l1 mB).st l2 m) := by
  refine ⟨fun _ _ _ _ _ _ _ => rfl, ?_, ?_, ?_, ?_⟩
  · intro mask pfm f
    cases f <;> exact maskHas_effMask _ _ _ (by decide)
  · intro f tty al pkg st line e hf hbit
    cases f <;>
      first
      | exact dispatch_disabled_architecture tty al pkg st line e hf hbit
      | exact dispatch_disabled_autoInstalled tty al pkg st line e hf hbit
      | exact dispatch_disabled_conffiles tty al pkg st line e hf hbit
      | exact dispatch_disabled_conflicts tty al pkg st line e hf hbit
      | exact dispatch_disabled_depends tty al pkg st line e hf hbit
      | exact dispatch_disabled_descriptionField tty al pkg st line e hf hbit
      | exact dispatch_disabled_essential tty al pkg st line e hf hbit
      | exact dispatch_disabled_filename tty al pkg st line e hf hbit
      | exact dispatch_disabled_installedSize tty al pkg st line e hf hbit
      | exact dispatch_disabled_installedTime tty al pkg st line e hf hbit
      | exact dispatch_disabled_maintainer tty al pkg st line e hf hbit
      | exact dispatch_disabled_md5sum tty al pkg st line e hf hbit
      | exact dispatch_disabled_md5sumLegacy tty al pkg st line e hf hbit
      | exact dispatch_disabled_package tty al pkg st line e hf hbit
      | exact dispatch_disabled_preDepends tty al pkg st line e hf hbit
      | exact dispatch_disabled_priorityField tty al pkg st line e hf hbit
      | exact dispatch_disabled_provides tty al pkg st line e hf hbit
      | exact dispatch_disabled_recommends tty al pkg st line e hf hbit
      | exact dispatch_disabled_replaces tty al pkg st line e hf hbit
      | exact dispatch_disabled_sectionField tty al pkg st line e hf hbit
      | exact dispatch_disabled_sha256sum tty al pkg st line e hf hbit
      | exact dispatch_disabled_sizeField tty al pkg st line e hf hbit
      | exact dispatch_disabled_source tty al pkg st line e hf hbit
      | exact dispatch_disabled_status tty al pkg st line e hf hbit
      | exact dispatch_disabled_suggests tty al pkg st line e hf hbit
      | exact dispatch_disabled_tags tty al pkg st line e hf hbit
      | exact dispatch_disabled_version tty al pkg st line e hf hbit
  · intro f tty al pkg st line e hf hbit
    cases f <;>
      first
      | exact dispatch_enabled_architecture tty al pkg st line e hf hbit
      | exact dispatch_enabled_autoInstalled tty al pkg st line e hf hbit
      | exact dispatch_enabled_conffiles tty al pkg st line e hf hbit
      | exact dispatch_enabled_conflicts tty al pkg st line e hf hbit
      | exact dispatch_enabled_depends tty al pkg st line e hf hbit
      | exact dispatch_enabled_descriptionField tty al pkg st line e hf hbit
      | exact dispatch_enabled_essential tty al pkg st line e hf hbit
      | exact dispatch_enabled_filename tty al pkg st line e hf hbit
      | exact dispatch_enabled_installedSize tty al pkg st line e hf hbit
      | exact dispatch_enabled_installedTime tty al pkg st line e hf hbit
      | exact dispatch_enabled_maintainer tty al pkg st line e hf hbit
      | exact dispatch_enabled_md5sum tty al pkg st line e hf hbit
      | exact dispatch_enabled_md5sumLegacy tty al pkg st line e hf hbit
      | exact dispatch_enabled_package tty al pkg st line e hf hbit
      | exact dispatch_enabled_preDepends tty al pkg st line e hf hbit
      | exact dispatch_enabled_priorityField tty al pkg st line e hf hbit
      | exact dispatch_enabled_provides tty al pkg st line e hf hbit
      | exact dispatch_enabled_recommends tty al pkg st line e hf hbit
      | exact dispatch_enabled_replaces tty al pkg st line e hf hbit
      | exact dispatch_enabled_sectionField tty al pkg st line e hf hbit
      | exact dispatch_enabled_sha256sum tty al pkg st line e hf hbit
      | exact dispatch_enabled_sizeField tty al pkg st line e hf hbit
      | exact dispatch_enabled_source tty al pkg st line e hf hbit
      | exact dispatch_enabled_status tty al pkg st line e hf hbit
      | exact dispatch_enabled_suggests tty al pkg st line e hf hbit
      | exact dispatch_enabled_tags tty al pkg st line e hf hbit
      | exact dispatch_enabled_version tty al pkg st line e hf hbit
  · intro tty al pfm pkg st l1 l2 mA mB m h1 h2
    rw [h1, h2]

/-- Witness for C4: with an effective mask of zero the `Package:` line
is handled exactly like an unrecognized line. -/
theorem C4_visibility_mask_witness :
    dispatch false [] ({} : Pkg) ({} : PState) (("Package: x").data) 0 =
      handle_default ({} : Pkg) ({} : PState) (("Package: x").data) :=
  C4_visibility_mask.2.2.1 PField.package false [] {} {} (("Package: x").data) 0
    (by decide) (by decide)

/-! ### Claim C5 -/

/-- C5 counterexample: a line consisting of a single space is blank
(`line_is_blank` holds), yet while a description continuation is open
the per-line call consumes it as continuation data and returns 0, so
the return value is NOT true for every blank line. -/
theorem C5_return_contract_cex :
    line_is_blank ((" ").data) = true
    ∧ (pkg_parse_line false [] 0 ({} : Pkg)
        ⟨false, true, some (("x").data)⟩ ((" ").data) 0).ret = false := by
  decide

/-- C5 (amended): the per-line call returns true exactly when the line
is blank AND is not consumed as continuation data; a blank line
beginning with a space is consumed (return false) while the matching
continuation is open, and every non-blank line returns false. -/
theorem C5_return_contract (tty : Bool) (al : List (List Char × List Char))
    (pfm : Nat) (pkg : Pkg) (st : PState) (line : List Char) (mask : Nat) :
    (pkg_parse_line tty al pfm pkg st line mask).ret =
      (line_is_blank line
        && !(cont_description (((mask % UINT_MOD) ||| (pfm % UINT_MOD)) ^^^ PFM_ALL) st line
             || cont_conffiles (((mask % UINT_MOD) ||| (pfm % UINT_MOD)) ^^^ PFM_ALL) st line)) := by
  unfold pkg_parse_line
  exact dispatch_ret tty al pkg st line _

/-! ### Claim C6 -/

/-- C6 counterexample: the conffiles continuation line ` /a b c` does
not consist of exactly two whitespace-separated tokens, yet the code
appends the entry `(/a, b)` built from the first two tokens and logs no
error — `sscanf` succeeds as soon as two conversions are filled. -/
theorem C6_conffiles_cex :
    (pkg_parse_line false [] 0 ({} : Pkg) ⟨true, false, none⟩
        ((" /a b c").data) 0).pkg.conffiles = [((("/a").data), (("b").data))]
    ∧ (pkg_parse_line false [] 0 ({} : Pkg) ⟨true, false, none⟩
        ((" /a b c").data) 0).diags = [] := by
  decide

/-- C6 (amended): while the conffiles continuation is open, a
continuation line carrying two whitespace-separated tokens (within the
1023/84 field widths; trailing tokens beyond the second are ignored)
appends exactly one entry with those two values; a line with fewer than
two tokens (e.g. only a path) logs an error and appends nothing; in
both cases the line is consumed with return 0 and the continuation
remains open. -/
theorem C6_conffiles_behavior :
    (∀ (pkg : Pkg) (w1 t1 w2 t2 w3 : List Char),
      (∀ x ∈ w1, isspace_c x = true) →
      t1 ≠ [] → (∀ x ∈ t1, isspace_c x = false) → t1.length ≤ 1023 →
      w2 ≠ [] → (∀ x ∈ w2, isspace_c x = true) →
      t2 ≠ [] → (∀ x ∈ t2, isspace_c x = false) → t2.length ≤ 84 →
      (∀ x ∈ w3, isspace_c x = true) →
      parse_conffiles pkg (w1 ++ (t1 ++ (w2 ++ (t2 ++ w3)))) =
        ({ pkg with conffiles := pkg.conffiles ++ [(t1, t2)] }, []))
    ∧ (∀ (pkg : Pkg) (w1 t1 w2 : List Char),
      (∀ x ∈ w1, isspace_c x = true) →
      (∀ x ∈ t1, isspace_c x = false) → t1.length ≤ 1023 →
      (∀ x ∈ w2, isspace_c x = true) →
      parse_conffiles pkg (w1 ++ (t1 ++ w2)) = (pkg, [Diag.conffilesErr]))
    ∧ (∀ (tty : Bool) (al : List (List Char × List Char)) (pkg : Pkg) (st : PState)
        (line : List Char) (e : Nat),
      line.head? = some ' ' →
      (maskHas e PFM_DESCRIPTION && st.reading_description) = false →
      maskHas e PFM_CONFFILES = true → st.reading_conffiles = true →
      dispatch tty al pkg st line e =
        ⟨(parse_conffiles pkg line).1, st, false, (parse_conffiles pkg line).2⟩) := by
  refine ⟨?_, ?_, ?_⟩
  · intro pkg w1 t1 w2 t2 w3 hw1 ht1 ht1n hl1 hw2 hw2s ht2 ht2n hl2 hw3
    simp only [parse_conffiles,
      sscanf_two_exact w1 t1 w2 t2 w3 hw1 ht1 ht1n hl1 hw2 hw2s ht2 ht2n hl2 hw3]
  · intro pkg w1 t1 w2 hw1 ht1n hl1 hw2
    simp only [parse_conffiles, sscanf_two_short w1 t1 w2 hw1 ht1n hl1 hw2]
  · intro tty al pkg st line e h0 hd h1 h2
    exact dispatch_cont_conffiles tty al pkg st line e h0 hd h1 h2

/-- Witness for C6 (amended): the two-token continuation line
` /etc/foo.conf d41d8cd98f00b204e9800998ecf8427e` appends exactly that
entry with no diagnostic. -/
theorem C6_conffiles_witness :
    parse_conffiles ({} : Pkg)
        (([' ']) ++ (((("/etc/foo.conf").data)) ++ (([' ']) ++
          (((("d41d8cd98f00b204e9800998ecf8427e").data)) ++ ([] : List Char))))) =
      ({ ({} : Pkg) with conffiles := ({} : Pkg).conffiles ++
          [(((("/etc/foo.conf").data)), ((("d41d8cd98f00b204e9800998ecf8427e").data)))] },
       []) :=
  C6_conffiles_behavior.1 {} ([' ']) ((("/etc/foo.conf").data)) ([' '])
    ((("d41d8cd98f00b204e9800998ecf8427e").data)) []
    (by decide) (by decide) (by decide) (by decide) (by decide) (by decide)
    (by decide) (by decide) (by decide) (by decide)

/-! ### Claim C7 -/

/-- C7 counterexample: with a description continuation open and `foo`
accumulated, a `Conffiles:` field line closes the description
continuation (the flag drops and the conffiles continuation opens), but
the accumulated text is NOT written into the record — so the
description is not committed at the moment this continuation-closing
line arrives, contradicting the claim that the accumulated description
is written when a non-continuation line closes the continuation. -/
theorem C7_description_cex :
    (pkg_parse_line false [] 0 ({} : Pkg) ⟨false, true, some (("foo").data)⟩
        (("Conffiles:").data) 0).pkg.description = none
    ∧ (pkg_parse_line false [] 0 ({} : Pkg) ⟨false, true, some (("foo").data)⟩
        (("Conffiles:").data) 0).st.reading_description = false
    ∧ (pkg_parse_line false [] 0 ({} : Pkg) ⟨false, true, some (("foo").data)⟩
        (("Conffiles:").data) 0).st.reading_conffiles = true := by
  decide

/-- C7 (amended): while the description continuation is open, each
space-prefixed line is appended to the accumulation buffer — joined
with a newline separator when the consumer is interactive and
concatenated directly otherwise — and the record is not modified
mid-accumulation; the accumulated description is committed to the
record when the continuation is closed by a line that neither
continues nor opens a continuation (including a blank line); a
`Conffiles:` field line closes the description continuation WITHOUT
committing, leaving the record untouched and the buffer orphaned. -/
theorem C7_description_accumulation :
    (∀ (tty : Bool) (al : List (List Char × List Char)) (pkg : Pkg) (st : PState)
        (line : List Char) (e : Nat),
      line.head? = some ' ' → maskHas e PFM_DESCRIPTION = true →
      st.reading_description = true →
      dispatch tty al pkg st line e =
        ⟨pkg, ⟨st.reading_conffiles, st.reading_description,
          some ((st.description.getD []) ++ (if tty then '\n' :: line else line))⟩,
         false, []⟩)
    ∧ (∀ (tty : Bool) (al : List (List Char × List Char)) (pkg : Pkg) (st : PState)
        (line : List Char) (e : Nat) (d : List Char),
      st.reading_description = true → st.description = some d →
      opens_conffiles e line = false → opens_description e line = false →
      cont_description e st line = false → cont_conffiles e st line = false →
      (dispatch tty al pkg st line e).pkg.description = some (set_string_val d)
        ∧ (dispatch tty al pkg st line e).st = ⟨false, false, none⟩)
    ∧ (∀ (tty : Bool) (al : List (List Char × List Char)) (pkg : Pkg) (st : PState)
        (line : List Char) (e : Nat),
      maskHas e PFM_CONFFILES = true → is_field (("Conffiles").data) line = true →
      (dispatch tty al pkg st line e).pkg = pkg
        ∧ (dispatch tty al pkg st line e).st = ⟨true, false, st.description⟩) := by
  refine ⟨?_, ?_, ?_⟩
  · intro tty al pkg st line e h0 h1 h2
    exact dispatch_cont_description tty al pkg st line e h0 h1 h2
  · intro tty al pkg st line e d hrd hd ho1 ho2 hc1 hc2
    rw [dispatch_else tty al pkg st line e ho1 ho2 hc1 hc2]
    constructor
    · simp [finish_flags, hrd, hd]
    · exact finish_flags_st _ _ _ _
  · intro tty al pkg st line e h1 h2
    rw [dispatch_open_conffiles tty al pkg st line e h1 h2]
    exact ⟨rfl, rfl⟩

/-- Witness for C7 (amended): an unrecognized line closes an open
description continuation and commits the accumulated text `foo`. -/
theorem C7_description_witness :
    (dispatch false [] ({} : Pkg) ⟨false, true, some (("foo").data)⟩
        (("Next: x").data) 0).pkg.description = some (set_string_val (("foo").data))
    ∧ (dispatch false [] ({} : Pkg) ⟨false, true, some (("foo").data)⟩
        (("Next: x").data) 0).st = ⟨false, false, none⟩ :=
  C7_description_accumulation.2.1 false [] {} ⟨false, true, some (("foo").data)⟩
    (("Next: x").data) 0 (("foo").data) rfl rfl (by decide) (by decide) (by decide) (by decide)

/-! ### Claim C9 -/

/-- C9 counterexample: a line consisting of a single space is blank,
yet while the conffiles continuation is open it is consumed as
continuation data and the continuation stays open — so not every blank
line returns the continuation state to idle. -/
theorem C9_continuation_cex :
    line_is_blank ((" ").data) = true
    ∧ (pkg_parse_line false [] 0 ({} : Pkg) ⟨true, false, none⟩
        ((" ").data) 0).st.reading_conffiles = true := by
  decide

/-- C9 (amended): at most one continuation is open after every call
(starting from a state with at most one open); opening one continuation
closes the other; and every line that neither continues nor opens a
continuation — including blank lines not beginning with a space —
returns the continuation state to idle.  A blank line beginning with a
space while a matching continuation is open is consumed as continuation
data and leaves the continuation open. -/
theorem C9_continuation_exclusivity :
    (∀ (tty : Bool) (al : List (List Char × List Char)) (pkg : Pkg) (st : PState)
        (line : List Char) (e : Nat),
      ¬(st.reading_conffiles = true ∧ st.reading_description = true) →
      ¬((dispatch tty al pkg st line e).st.reading_conffiles = true
        ∧ (dispatch tty al pkg st line e).st.reading_description = true))
    ∧ (∀ (tty : Bool) (al : List (List Char × List Char)) (pkg : Pkg) (st : PState)
        (line : List Char) (e : Nat),
      maskHas e PFM_CONFFILES = true → is_field (("Conffiles").data) line = true →
      (dispatch tty al pkg st line e).st.reading_conffiles = true
        ∧ (dispatch tty al pkg st line e).st.reading_description = false)
    ∧ (∀ (tty : Bool) (al : List (List Char × List Char)) (pkg : Pkg) (st : PState)
        (line : List Char) (e : Nat),
      maskHas e PFM_DESCRIPTION = true → is_field (("Description").data) line = true →
      (dispatch tty al pkg st line e).st.reading_description = true
        ∧ (dispatch tty al pkg st line e).st.reading_conffiles = false)
    ∧ (∀ (tty : Bool) (al : List (List Char × List Char)) (pkg : Pkg) (st : PState)
        (line : List Char) (e : Nat),
      opens_conffiles e line = false → opens_description e line = false →
      cont_description e st line = false → cont_conffiles e st line = false →
      (dispatch tty al pkg st line e).st = ⟨false, false, none⟩) := by
  refine ⟨?_, ?_, ?_, ?_⟩
  · intro tty al pkg st line e hpre
    rw [dispatch_st]
    split_ifs <;> simp_all
  · intro tty al pkg st line e h1 h2
    rw [dispatch_open_conffiles tty al pkg st line e h1 h2]
    exact ⟨rfl, rfl⟩
  · intro tty al pkg st line e h1 h2
    rw [dispatch_open_description tty al pkg st line e h1 h2]
    exact ⟨rfl, rfl⟩
  · intro tty al pkg st line e ho1 ho2 hc1 hc2
    rw [dispatch_else tty al pkg st line e ho1 ho2 hc1 hc2]
    exact finish_flags_st _ _ _ _

/-- Witness for C9 (amended): an unrecognized line with the conffiles
continuation open returns the state to idle. -/
theorem C9_continuation_witness :
    (dispatch false [] ({} : Pkg) ⟨true, false, none⟩ (("Hello").data) 0).st =
      ⟨false, false, none⟩ :=
  C9_continuation_exclusivity.2.2.2 false [] {} ⟨true, false, none⟩ (("Hello").data) 0
    (by decide) (by decide) (by decide) (by decide)

/-! ### Claim C8 -/

theorem finish_flags_size (p : Pkg) (st : PState) (r : Bool) (d : List Diag) :
    (finish_flags p st r d).pkg.size = p.size := by
  simp only [finish_flags]
  split <;> rfl

theorem finish_flags_installed_size (p : Pkg) (st : PState) (r : Bool) (d : List Diag) :
    (finish_flags p st r d).pkg.installed_size = p.installed_size := by
  simp only [finish_flags]
  split <;> rfl

theorem finish_flags_installed_time (p : Pkg) (st : PState) (r : Bool) (d : List Diag) :
    (finish_flags p st r d).pkg.installed_time = p.installed_time := by
  simp only [finish_flags]
  split <;> rfl

theorem mkUlong_zero (neg : Bool) : (mkUlong neg 0).val = 0 := by
  cases neg <;> simp [mkUlong, ULONG_MAX]

theorem strtoul0_no_digit (s : List Char) (h : noLeadingDigit s = true) :
    (strtoul0 s).val = 0 := by
  unfold noLeadingDigit at h
  have hd : ((splitSign (s.dropWhile isspace_c)).2).takeWhile isdigit_c = [] := by
    cases hp : (splitSign (s.dropWhile isspace_c)).2 with
    | nil => rfl
    | cons c cs =>
      rw [hp] at h
      simp only [List.head?_cons] at h
      simp only [List.takeWhile_cons]
      simp only [Bool.not_eq_true'] at h
      simp [h]
  have hnil : ∀ (x : Char) (r : List Char),
      (splitSign (s.dropWhile isspace_c)).2 ≠ '0' :: x :: r := by
    intro x r hcon
    rw [hcon] at hd
    simp [List.takeWhile_cons, isdigit_c] at hd
  have hnil2 : (splitSign (s.dropWhile isspace_c)).2 ≠ ['0'] := by
    intro hcon
    rw [hcon] at hd
    simp [List.takeWhile_cons, isdigit_c] at hd
  simp only [strtoul0]
  rw [hd]
  exact mkUlong_zero _

theorem dispatch_size (tty : Bool) (al : List (List Char × List Char))
    (pkg : Pkg) (st : PState) (line : List Char) (e : Nat)
    (hm : maskHas e PFM_SIZE = true)
    (hf : is_field (("Size").data) line = true) :
    (dispatch tty al pkg st line e).pkg.size =
        (strtoul0 (parse_simple (("Size").data) line)).val
      ∧ (dispatch tty al pkg st line e).diags = [] := by
  have hhead : line.head? = some 'S' := (is_field_head _ line (by decide) hf).trans rfl
  have hx1 : is_field (("Section").data) line = false :=
    is_field_excl (("Size").data) (("Section").data) line 1 (by decide) (by decide) (by decide) hf
  have hx2 : is_field (("SHA256sum").data) line = false :=
    is_field_excl (("Size").data) (("SHA256sum").data) line 1 (by decide) (by decide) (by decide) hf
  cases line with
  | nil => cases hhead
  | cons c rest =>
    simp only [List.head?_cons, Option.some.injEq] at hhead
    subst hhead
    have hdis : dispatch tty al pkg st ('S' :: rest) e =
        finish_flags { pkg with size := (strtoul0 (parse_simple (("Size").data) ('S' :: rest))).val }
          st false [] := by
      simp [dispatch, hm, hf, hx1, hx2]
    rw [hdis, finish_flags_size]
    exact ⟨rfl, rfl⟩

theorem dispatch_installed_size (tty : Bool) (al : List (List Char × List Char))
    (pkg : Pkg) (st : PState) (line : List Char) (e : Nat)
    (hm : maskHas e PFM_INSTALLED_SIZE = true)
    (hf : is_field (("Installed-Size").data) line = true) :
    (dispatch tty al pkg st line e).pkg.installed_size =
        (strtoul0 (parse_simple (("Installed-Size").data) line)).val
      ∧ (dispatch tty al pkg st line e).diags = [] := by
  have hhead : line.head? = some 'I' := (is_field_head _ line (by decide) hf).trans rfl
  cases line with
  | nil => cases hhead
  | cons c rest =>
    simp only [List.head?_cons, Option.some.injEq] at hhead
    subst hhead
    have hdis : dispatch tty al pkg st ('I' :: rest) e =
        finish_flags { pkg with installed_size :=
            (strtoul0 (parse_simple (("Installed-Size").data) ('I' :: rest))).val }
          st false [] := by
      simp [dispatch, hm, hf]
    rw [hdis, finish_flags_installed_size]
    exact ⟨rfl, rfl⟩

theorem dispatch_installed_time (tty : Bool) (al : List (List Char × List Char))
    (pkg : Pkg) (st : PState) (line : List Char) (e : Nat)
    (hm : maskHas e PFM_INSTALLED_TIME = true)
    (hf : is_field (("Installed-Time").data) line = true) :
    (dispatch tty al pkg st line e).pkg.installed_time =
        (strtoul0 (parse_simple (("Installed-Time").data) line)).val
      ∧ (dispatch tty al pkg st line e).diags = [] := by
  have hhead : line.head? = some 'I' := (is_field_head _ line (by decide) hf).trans rfl
  have hx1 : is_field (("Installed-Size").data) line = false :=
    is_field_excl (("Installed-Time").data) (("Installed-Size").data) line 10
      (by decide) (by decide) (by decide) hf
  cases line with
  | nil => cases hhead
  | cons c rest =>
    simp only [List.head?_cons, Option.some.injEq] at hhead
    subst hhead
    have hdis : dispatch tty al pkg st ('I' :: rest) e =
        finish_flags { pkg with installed_time :=
            (strtoul0 (parse_simple (("Installed-Time").data) ('I' :: rest))).val }
          st false [] := by
      simp [dispatch, hm, hf, hx1]
    rw [hdis, finish_flags_installed_time]
    exact ⟨rfl, rfl⟩

/-- C8 counterexample: the enabled line `Size: 0x10` stores 16 in the
size field — `strtoul(tmp, NULL, 0)` accepts the C hexadecimal prefix —
while a best-effort unsigned DECIMAL parse of the value `0x10` yields
0; the stored value is not the decimal parse the claim describes. -/
theorem C8_numeric_cex :
    (pkg_parse_line false [] 0 ({} : Pkg) ({} : PState) (("Size: 0x10").data) 0).pkg.size = 16
    ∧ (strtoul10 ((("0x10").data))).val = 0
    ∧ (pkg_parse_line false [] 0 ({} : Pkg) ({} : PState)
        (("Size: 0x10").data) 0).pkg.size ≠ (strtoul10 ((("0x10").data))).val := by
  decide

/-- C8 (amended): for every enabled Installed-Size, Installed-Time or
Size line the value is parsed by `strtoul` with base 0 (decimal, or
hexadecimal after `0x`, or octal after a leading `0`) into the
corresponding record field; no diagnostic is emitted; the parse is
best-effort and a value with no parseable leading number stores
zero. -/
theorem C8_numeric_fields :
    (∀ (tty : Bool) (al : List (List Char × List Char)) (pkg : Pkg) (st : PState)
        (line : List Char) (e : Nat),
      maskHas e PFM_SIZE = true → is_field (("Size").data) line = true →
      (dispatch tty al pkg st line e).pkg.size =
          (strtoul0 (parse_simple (("Size").data) line)).val
        ∧ (dispatch tty al pkg st line e).diags = [])
    ∧ (∀ (tty : Bool) (al : List (List Char × List Char)) (pkg : Pkg) (st : PState)
        (line : List Char) (e : Nat),
      maskHas e PFM_INSTALLED_SIZE = true → is_field (("Installed-Size").data) line = true →
      (dispatch tty al pkg st line e).pkg.installed_size =
          (strtoul0 (parse_simple (("Installed-Size").data) line)).val
        ∧ (dispatch tty al pkg st line e).diags = [])
    ∧ (∀ (tty : Bool) (al : List (List Char × List Char)) (pkg : Pkg) (st : PState)
        (line : List Char) (e : Nat),
      maskHas e PFM_INSTALLED_TIME = true → is_field (("Installed-Time").data) line = true →
      (dispatch tty al pkg st line e).pkg.installed_time =
          (strtoul0 (parse_simple (("Installed-Time").data) line)).val
        ∧ (dispatch tty al pkg st line e).diags = [])
    ∧ (∀ (s : List Char), noLeadingDigit s = true → (strtoul0 s).val = 0) := by
  refine ⟨?_, ?_, ?_, ?_⟩
  · intro tty al pkg st line e hm hf
    exact dispatch_size tty al pkg st line e hm hf
  · intro tty al pkg st line e hm hf
    exact dispatch_installed_size tty al pkg st line e hm hf
  · intro tty al pkg st line e hm hf
    exact dispatch_installed_time tty al pkg st line e hm hf
  · intro s h
    exact strtoul0_no_digit s h

/-- Witness for C8 (amended): the enabled line `Size: 0x10` stores the
base-0 parse of `0x10` with no diagnostic. -/
theorem C8_numeric_fields_witness :
    (dispatch false [] ({} : Pkg) ({} : PState) (("Size: 0x10").data) PFM_ALL).pkg.size =
        (strtoul0 (parse_simple (("Size").data) (("Size: 0x10").data))).val
      ∧ (dispatch false [] ({} : Pkg) ({} : PState) (("Size: 0x10").data) PFM_ALL).diags = [] :=
  C8_numeric_fields.1 false [] {} {} (("Size: 0x10").data) PFM_ALL (by decide) (by decide)

/-! ### Claim C10 -/

/-- C10: the stream driver returns the boundary signal whenever the
record's name is still unset when stream processing ends, regardless of
what the underlying line loop returned; with a name set it passes the
loop's signal through. -/
theorem C10_stream_driver (tty : Bool) (al : List (List Char × List Char))
    (pfm : Nat) (pkg : Pkg) (st : PState) (lines : List (List Char)) (mask : Nat) :
    ((pkg_parse_from_stream tty al pfm pkg st lines mask).1.name = none →
      (pkg_parse_from_stream tty al pfm pkg st lines mask).2.2.1 = true)
    ∧ ((pkg_parse_from_stream tty al pfm pkg st lines mask).1.name ≠ none →
      (pkg_parse_from_stream tty al pfm pkg st lines mask).2.2.1 =
        (parse_from_stream_loop tty al pfm mask pkg st lines).2.2.1) := by
  constructor
  · intro h
    simp only [pkg_parse_from_stream] at h ⊢
    rw [if_pos h]
  · intro h
    simp only [pkg_parse_from_stream] at h ⊢
    rw [if_neg h]

/-- Witness for C10: a stream of no lines leaves the record nameless
and the driver reports the boundary signal. -/
theorem C10_stream_driver_witness :
    (pkg_parse_from_stream false [] 0 ({} : Pkg) ({} : PState) [] 0).2.2.1 = true :=
  (C10_stream_driver false [] 0 {} {} [] 0).1 (by decide)
